import Mathlib

/-!
Verification of the componentize-py asynchronous bridge
(`bundled/componentize_py_async_support`): the scheduler trampoline
(`first_poll`, `_poll`, `callback`, `spawn`, `await_result`,
`_return_result`, `_wrap_spawned` in `__init__.py`) and the stream/future
handle wrappers (`streams.py`, `futures.py`).

The trampoline is embedded as a small-step machine.  A client coroutine is a
resumable tree (`Coro`): each await of the bridge primitive `await_result`
either carries an immediate (`Ok`) host result or a pending
`(waitable, promise)` pair on which the coroutine suspends.  The custom
event loop `_Loop` keeps a FIFO `handles` queue; running one handle advances
one task to its next suspension point or to completion, exactly as
`asyncio.Task` does under `_Loop.call_soon`.  Host primitives
(`waitable_set_new`, `waitable_join`, `context_set`, `call_task_return`,
...) live outside this repository; they are recorded in an explicit trace,
fresh waitable-set ids come from a counter, and `promise_get_result` is an
abstract function parameter `pgr`.  Python exceptions that the bridge lets
escape (assertion failures, `KeyError`, `NotImplementedError`, the re-raise
of `_Loop.exception`) are `PyErr` results.  `_Loop.poll`'s unbounded drain
loop is given explicit fuel; a sufficiency bound is proved where a claim
needs the loop to finish.

The stream/future wrapper classes are embedded as functional records; the
host's eventual answer to each awaited read/write is passed in explicitly
as an oracle argument, and host calls made by a method are returned as a
trace.
-/

namespace ComponentizePy

/- Return codes for stream/future operations (`_ReturnCode` in `__init__.py`). -/
namespace _ReturnCode

def COMPLETED : Nat := 0

def DROPPED : Nat := 1

def CANCELLED : Nat := 2

end _ReturnCode

/- Callback codes returned to the host (`_CallbackCode` in `__init__.py`). -/
namespace _CallbackCode

def EXIT : Nat := 0

def YIELD : Nat := 1

def WAIT : Nat := 2

def POLL : Nat := 3

end _CallbackCode

/- Event classes delivered by the host (`_Event` in `__init__.py`). -/
namespace _Event

def NONE : Nat := 0

def SUBTASK : Nat := 1

def STREAM_READ : Nat := 2

def STREAM_WRITE : Nat := 3

def FUTURE_READ : Nat := 4

def FUTURE_WRITE : Nat := 5

def CANCELLED : Nat := 6

end _Event

/- Subtask statuses (`_Status` in `__init__.py`). -/
namespace _Status

def STARTING : Nat := 0

def STARTED : Nat := 1

def RETURNED : Nat := 2

def START_CANCELLED : Nat := 3

def RETURN_CANCELLED : Nat := 4

end _Status

/-- The argument of `await_result`: `Result[T, tuple[int, int]]` — either an
immediate value (`Ok`) or a pending `(waitable, promise)` pair (`Err`). -/
inductive BridgeRes where
  | ok (value : Nat)
  | pending (waitable : Nat) (promise : Nat)
deriving DecidableEq, Repr

/-- A client coroutine, as the tree of its interactions with the bridge:
it can return, raise the application error type `Err`, raise any other
exception, await a bridge result (the continuation receives the value
`await_result` returns), or call `spawn` and continue. -/
inductive Coro where
  | ret
  | raiseErr
  | raiseOther
  | awaitRes (r : BridgeRes) (k : Nat → Coro)
  | doSpawn (c : Coro) (k : Coro)

/-- Whether a task was created by `first_poll` (wrapped in `_return_result`,
carrying the `export_index` and `borrows` arguments) or by `spawn` (wrapped
in `_wrap_spawned`). -/
inductive TaskKind where
  | root (exportIndex : Nat) (borrows : Nat)
  | spawned

/-- A suspended task parked in `_FutureState.futures`: the wrapping kind and
the continuation run when its completion future is resolved with an event
payload. -/
abbrev Susp := TaskKind × (Nat → Coro)

/-- A ready entry of `_FutureState.handles`: a task together with the
coroutine tree it still has to run. -/
abbrev HandleEntry := TaskKind × Coro

/-- Host primitives invoked by the bridge, recorded as a trace
(`componentize_py_runtime` is outside this repository). -/
inductive HostCall where
  | waitable_set_new (s : Nat)
  | waitable_set_drop (s : Nat)
  | waitable_join (w : Nat) (s : Nat)
  | subtask_drop (w : Nat)
  | context_set (occupied : Bool)
  | call_task_return (exportIndex : Nat) (borrows : Nat) (isOk : Bool)
deriving DecidableEq, Repr

/-- Python exceptions escaping the bridge, plus fuel exhaustion of the
drain loop. -/
inductive PyErr where
  | assertionError
  | keyError
  | notImplementedError
  | loopException
  | noneContext
  | fuelOut
deriving DecidableEq, Repr

/-- `_FutureState` (the per-root-task state record in `__init__.py`). -/
structure _FutureState where
  waitable_set : Option Nat
  futures : List (Nat × Susp)
  handles : List HandleEntry
  pending_count : Int

/-- The whole machine: the root task's `_FutureState`, whether
`_Loop.exception` is set, the host's counter for fresh waitable-set ids,
whether the host's single-slot context cell is occupied, and the trace of
host calls made so far. -/
structure Machine where
  fs : _FutureState
  loopExc : Bool
  nextSet : Nat
  ctxCell : Bool
  trace : List HostCall

/-- Append one host call to the trace. -/
def emit (c : HostCall) (st : Machine) : Machine :=
  { st with trace := st.trace ++ [c] }

/-- Python dict assignment `futures[waitable] = future`: replace the entry
if the key is present (silently), otherwise append it. -/
def setFuture (w : Nat) (s : Susp) : List (Nat × Susp) → List (Nat × Susp)
  | [] => [(w, s)]
  | (w', s') :: rest => if w' = w then (w, s) :: rest else (w', s') :: setFuture w s rest

/-- Python `futures.pop(waitable)`: remove and return the entry, or `none`
(a `KeyError`) if the key is absent. -/
def popFuture (w : Nat) : List (Nat × Susp) → Option (Susp × List (Nat × Susp))
  | [] => none
  | (w', s') :: rest =>
      if w' = w then some (s', rest)
      else (popFuture w rest).map (fun q => (q.1, (w', s') :: q.2))

/-- Whether a waitable-id is registered in the `futures` dict. -/
def hasFuture (w : Nat) : List (Nat × Susp) → Bool
  | [] => false
  | (w', _) :: rest => w' = w || hasFuture w rest

/-- `spawn(coroutine)`: increment `pending_count`, then
`asyncio.create_task(_wrap_spawned(coroutine))`, which only schedules the
spawned task's first step on the ready queue — the spawned coroutine does
not run (and so cannot suspend) before the increment. -/
def spawn (c : Coro) (st : Machine) : Machine :=
  { st with fs := { st.fs with
      pending_count := st.fs.pending_count + 1,
      handles := st.fs.handles ++ [(TaskKind.spawned, c)] } }

/-- The `assert pending_count > 0; pending_count -= 1` epilogue shared by
`_return_result` and `_wrap_spawned`; a non-positive count fails fast. -/
def decrement_pending (st : Machine) : Except PyErr Machine :=
  if 0 < st.fs.pending_count then
    .ok { st with fs := { st.fs with pending_count := st.fs.pending_count - 1 } }
  else .error PyErr.assertionError

/-- End of `_return_result` when the wrapped coroutine returned or raised
`Err`: `call_task_return` delivers the `Ok`/`Err` result, then the pending
count is decremented. -/
def _return_result_end (ei b : Nat) (isOk : Bool) (st : Machine) : Except PyErr Machine :=
  decrement_pending (emit (HostCall.call_task_return ei b isOk) st)

/-- End of `_return_result` when the coroutine (or `call_task_return`)
raised a non-`Err` exception: it is stored in `_Loop.exception`, and the
pending count is still decremented. -/
def _return_result_uncaught (st : Machine) : Except PyErr Machine :=
  decrement_pending { st with loopExc := true }

/-- End of `_wrap_spawned` when the spawned coroutine returned: decrement
the pending count. -/
def _wrap_spawned_end (st : Machine) : Except PyErr Machine :=
  decrement_pending st

/-- End of `_wrap_spawned` when the spawned coroutine raised (any
exception, `Err` included): store it in `_Loop.exception`, then decrement
the pending count. -/
def _wrap_spawned_fail (st : Machine) : Except PyErr Machine :=
  decrement_pending { st with loopExc := true }

/-- The suspending branch of `await_result` (its argument was
`Err((waitable, promise))`): store a fresh completion future under the
waitable-id in `futures` (a silent overwrite if the id is already
registered), lazily create the waitable set, and join the waitable to it.
The stored continuation resumes as
`promise_get_result(await future, promise)`, i.e. it feeds the delivered
event payload through `pgr` before continuing. -/
def await_result_register (pgr : Nat → Nat → Nat) (kind : TaskKind) (w p : Nat)
    (k : Nat → Coro) (st : Machine) : Machine :=
  let st1 := { st with fs := { st.fs with
      futures := setFuture w (kind, fun ev => k (pgr ev p)) st.fs.futures } }
  match st1.fs.waitable_set with
  | some s => emit (HostCall.waitable_join w s) st1
  | none =>
      let s := st1.nextSet
      let st2 := emit (HostCall.waitable_set_new s)
        { st1 with nextSet := st1.nextSet + 1,
                   fs := { st1.fs with waitable_set := some s } }
      emit (HostCall.waitable_join w s) st2

/-- Run one ready task to its next suspension point or to completion: the
immediate branch of `await_result` continues synchronously with the `Ok`
value, the pending branch registers the continuation and suspends, `spawn`
schedules the child and continues, and termination runs the
`_return_result`/`_wrap_spawned` epilogue for the task's kind. -/
def runTask (pgr : Nat → Nat → Nat) : TaskKind → Coro → Machine → Except PyErr Machine
  | TaskKind.root ei b, Coro.ret, st => _return_result_end ei b true st
  | TaskKind.spawned, Coro.ret, st => _wrap_spawned_end st
  | TaskKind.root ei b, Coro.raiseErr, st => _return_result_end ei b false st
  | TaskKind.spawned, Coro.raiseErr, st => _wrap_spawned_fail st
  | TaskKind.root _ _, Coro.raiseOther, st => _return_result_uncaught st
  | TaskKind.spawned, Coro.raiseOther, st => _wrap_spawned_fail st
  | kind, Coro.awaitRes (BridgeRes.ok v) k, st => runTask pgr kind (k v) st
  | kind, Coro.awaitRes (BridgeRes.pending w p) k, st =>
      .ok (await_result_register pgr kind w p k st)
  | kind, Coro.doSpawn c k, st => runTask pgr kind k (spawn c st)

/-- The inner `for handle in handles: handle._run()` of `_Loop.poll`
(no handle is ever cancelled in this bridge). -/
def runHandles (pgr : Nat → Nat → Nat) : List HandleEntry → Machine → Except PyErr Machine
  | [], st => .ok st
  | (kind, c) :: rest, st =>
      match runTask pgr kind c st with
      | .error e => .error e
      | .ok st' => runHandles pgr rest st'

/-- `_Loop.poll`: repeatedly swap out the ready queue and run the batch;
after each batch re-raise `_Loop.exception` if set; stop when a whole pass
ran nothing and queued nothing.  The unbounded Python loop is given fuel. -/
def loop_poll (pgr : Nat → Nat → Nat) : Nat → Machine → Except PyErr Machine
  | 0, _ => .error PyErr.fuelOut
  | fuel + 1, st =>
      let batch := st.fs.handles
      match runHandles pgr batch { st with fs := { st.fs with handles := [] } } with
      | .error e => .error e
      | .ok st2 =>
          if st2.loopExc then .error PyErr.loopException
          else if batch.isEmpty && st2.fs.handles.isEmpty then .ok st2
          else loop_poll pgr fuel st2

/-- `_poll`: drain the loop, then either report EXIT — dropping the
waitable set if one was created — or assert that a waitable set exists,
park the root-task state in the host's context cell, and report WAIT
combined with the set id. -/
def _poll (pgr : Nat → Nat → Nat) (fuel : Nat) (st : Machine) : Except PyErr (Machine × Nat) :=
  match loop_poll pgr fuel st with
  | .error e => .error e
  | .ok st1 =>
      if st1.fs.pending_count = 0 then
        match st1.fs.waitable_set with
        | some s => .ok (emit (HostCall.waitable_set_drop s) st1, _CallbackCode.EXIT)
        | none => .ok (st1, _CallbackCode.EXIT)
      else
        match st1.fs.waitable_set with
        | some s =>
            .ok (emit (HostCall.context_set true) { st1 with ctxCell := true },
                 _CallbackCode.WAIT ||| (s <<< 4))
        | none => .error PyErr.assertionError

/-- The fresh machine built by `first_poll`: a new `_FutureState` with no
waitable set, empty `futures`, the root task scheduled as the only ready
handle, and `pending_count = 1`. -/
def machineInit (ei b : Nat) (co : Coro) : Machine :=
  { fs := { waitable_set := none, futures := [],
            handles := [(TaskKind.root ei b, co)], pending_count := 1 },
    loopExc := false, nextSet := 0, ctxCell := false, trace := [] }

/-- `first_poll(export_index, borrows, coroutine)`: build the fresh state,
schedule `_return_result(export_index, borrows, coroutine)`, and poll. -/
def first_poll (pgr : Nat → Nat → Nat) (fuel ei b : Nat) (co : Coro) :
    Except PyErr (Machine × Nat) :=
  _poll pgr fuel (machineInit ei b co)

/-- The event dispatch of `callback`: route one batched `(event0, event1,
event2)` host event.  Unknown classes, the post-hoc `STARTING` status and
unimplemented subtask statuses fail fast; resolving resumes the registered
continuation by scheduling it on the ready queue (`Future.set_result` via
`call_soon`), and popping an unregistered waitable-id is a `KeyError`. -/
def dispatchEvent (e0 e1 e2 : Nat) (st : Machine) : Except PyErr Machine :=
  if e0 = _Event.NONE then .ok st
  else if e0 = _Event.SUBTASK then
    if e2 = _Status.STARTING then .error PyErr.assertionError
    else if e2 = _Status.STARTED then .ok st
    else if e2 = _Status.RETURNED then
      let st1 := emit (HostCall.subtask_drop e1) (emit (HostCall.waitable_join e1 0) st)
      match popFuture e1 st1.fs.futures with
      | none => .error PyErr.keyError
      | some (susp, rest) =>
          .ok { st1 with fs := { st1.fs with
                  futures := rest,
                  handles := st1.fs.handles ++ [(susp.1, susp.2 e2)] } }
    else .error PyErr.notImplementedError
  else if e0 = _Event.STREAM_READ ∨ e0 = _Event.STREAM_WRITE ∨
          e0 = _Event.FUTURE_READ ∨ e0 = _Event.FUTURE_WRITE then
    let st1 := emit (HostCall.waitable_join e1 0) st
    match popFuture e1 st1.fs.futures with
    | none => .error PyErr.keyError
    | some (susp, rest) =>
        .ok { st1 with fs := { st1.fs with
                futures := rest,
                handles := st1.fs.handles ++ [(susp.1, susp.2 e2)] } }
  else .error PyErr.notImplementedError

/-- `callback(event0, event1, event2)`: take the root-task state out of the
host's context cell (clearing it), dispatch the event, and poll again. -/
def callback (pgr : Nat → Nat → Nat) (fuel e0 e1 e2 : Nat) (st : Machine) :
    Except PyErr (Machine × Nat) :=
  if st.ctxCell = false then .error PyErr.noneContext
  else
    let st0 := emit (HostCall.context_set false) { st with ctxCell := false }
    match dispatchEvent e0 e1 e2 st0 with
    | .error e => .error e
    | .ok st1 => _poll pgr fuel st1

/- Observers projecting a trampoline outcome to decidable data, used to
state concrete runs (the machine itself holds continuation functions and
has no decidable equality). -/

/-- The returned callback code of a successful trampoline call. -/
def obsCode : Except PyErr (Machine × Nat) → Option Nat
  | .ok (_, r) => some r
  | .error _ => none

/-- The Python exception of a failed trampoline call. -/
def obsErr : Except PyErr (Machine × Nat) → Option PyErr
  | .ok _ => none
  | .error e => some e

/-- The `pending_count` after a successful trampoline call. -/
def obsPending : Except PyErr (Machine × Nat) → Option Int
  | .ok (st, _) => some st.fs.pending_count
  | .error _ => none

/-- The `waitable_set` field after a successful trampoline call. -/
def obsSet : Except PyErr (Machine × Nat) → Option (Option Nat)
  | .ok (st, _) => some st.fs.waitable_set
  | .error _ => none

/-- The context-cell occupancy after a successful trampoline call. -/
def obsCtx : Except PyErr (Machine × Nat) → Option Bool
  | .ok (st, _) => some st.ctxCell
  | .error _ => none

/-- The host-call trace after a successful trampoline call. -/
def obsTrace : Except PyErr (Machine × Nat) → Option (List HostCall)
  | .ok (st, _) => some st.trace
  | .error _ => none

/-- The number of registered waitables after a successful trampoline call. -/
def obsFuturesLen : Except PyErr (Machine × Nat) → Option Nat
  | .ok (st, _) => some st.fs.futures.length
  | .error _ => none

/-- The length of the ready queue after a successful trampoline call. -/
def obsHandlesLen : Except PyErr (Machine × Nat) → Option Nat
  | .ok (st, _) => some st.fs.handles.length
  | .error _ => none

/- ---------------------------------------------------------------------
Resource handle wrappers (`streams.py` and `futures.py`).

Each class is a record of its Python attributes.  A method that awaits the
bridge takes the host's eventual answer as an explicit oracle argument
(for a stream read: the `(code, values)` pair `await_result` yields; for a
write: `(code, count)`), and returns the updated wrapper, the list of host
calls it made, and either its Python return value or the exception it
raised (state changes made before the raise are kept, as in Python).
--------------------------------------------------------------------- -/

/-- Host calls made by the wrapper classes. -/
inductive WrapCall where
  | stream_read (type_ : Nat) (handle : Nat) (max_count : Nat)
  | stream_write (type_ : Nat) (handle : Nat) (len : Nat)
  | stream_drop_readable (type_ : Nat) (handle : Nat)
  | stream_drop_writable (type_ : Nat) (handle : Nat)
  | future_read (type_ : Nat) (handle : Nat)
  | future_write (type_ : Nat) (handle : Nat) (value : Nat)
  | future_drop_readable (type_ : Nat) (handle : Nat)
  | future_drop_writable (type_ : Nat) (handle : Nat)
  | spawn_default_write (type_ : Nat) (default : Nat)
deriving DecidableEq, Repr

/-- `ByteStreamReader`: `writer_dropped`, `type_`, optional `handle`, and
whether the `weakref.finalize` finalizer is still attached. -/
structure ByteStreamReader where
  writer_dropped : Bool
  type_ : Nat
  handle : Option Nat
  finalizer : Bool

/-- `ByteStreamReader.read(max_count)`: short-circuit to an empty result
with no host round-trip when the writer is already dropped; otherwise
perform the host read (`_read` fails fast on a consumed handle), record a
`DROPPED` status in `writer_dropped`, and return the accompanying data
either way. -/
def ByteStreamReader.read (r : ByteStreamReader) (max_count : Nat)
    (resp : Nat × List Nat) :
    ByteStreamReader × List WrapCall × Except PyErr (List Nat) :=
  if r.writer_dropped then (r, [], .ok [])
  else
    match r.handle with
    | none => (r, [], .error PyErr.assertionError)
    | some h =>
        let r1 := if resp.1 = _ReturnCode.DROPPED then { r with writer_dropped := true } else r
        (r1, [WrapCall.stream_read r.type_ h max_count], .ok resp.2)

/-- `ByteStreamReader.__exit__`: detach the finalizer, take the handle out,
and release it to the host only if it was still present. -/
def ByteStreamReader.exitScope (r : ByteStreamReader) : ByteStreamReader × List WrapCall :=
  let r1 := { r with finalizer := false, handle := none }
  match r.handle with
  | some h => (r1, [WrapCall.stream_drop_readable r.type_ h])
  | none => (r1, [])

/-- `ByteStreamWriter`: `reader_dropped`, `type_`, optional `handle`, and
the finalizer flag. -/
structure ByteStreamWriter where
  reader_dropped : Bool
  type_ : Nat
  handle : Option Nat
  finalizer : Bool

/-- `ByteStreamWriter.write(source)`: short-circuit to 0 with no host
round-trip when the reader is already dropped; otherwise perform the host
write, record a `DROPPED` status, and return the accepted count. -/
def ByteStreamWriter.write (w : ByteStreamWriter) (source : List Nat)
    (resp : Nat × Nat) :
    ByteStreamWriter × List WrapCall × Except PyErr Nat :=
  if w.reader_dropped then (w, [], .ok 0)
  else
    match w.handle with
    | none => (w, [], .error PyErr.assertionError)
    | some h =>
        let w1 := if resp.1 = _ReturnCode.DROPPED then { w with reader_dropped := true } else w
        (w1, [WrapCall.stream_write w.type_ h source.length], .ok resp.2)

/-- `ByteStreamWriter.write_all(source)`: loop calling `write` with the
remaining suffix while data remains and the reader is not dropped,
advancing by the accepted count and accumulating the total.  Each loop
iteration consumes one oracle response; an exhausted oracle stands for a
loop that has not finished yet. -/
def ByteStreamWriter.write_all (w : ByteStreamWriter) (source : List Nat) :
    List (Nat × Nat) → ByteStreamWriter × List WrapCall × Except PyErr Nat
  | [] =>
      if 0 < source.length && !w.reader_dropped then (w, [], .error PyErr.fuelOut)
      else (w, [], .ok 0)
  | resp :: rest =>
      if 0 < source.length && !w.reader_dropped then
        match ByteStreamWriter.write w source resp with
        | (w1, tr, .error e) => (w1, tr, .error e)
        | (w1, tr, .ok count) =>
            match ByteStreamWriter.write_all w1 (source.drop count) rest with
            | (w2, tr2, .error e) => (w2, tr ++ tr2, .error e)
            | (w2, tr2, .ok total) => (w2, tr ++ tr2, .ok (count + total))
      else (w, [], .ok 0)

/-- `ByteStreamWriter.__exit__`: detach the finalizer, take the handle out,
and release it to the host only if it was still present. -/
def ByteStreamWriter.exitScope (w : ByteStreamWriter) : ByteStreamWriter × List WrapCall :=
  let w1 := { w with finalizer := false, handle := none }
  match w.handle with
  | some h => (w1, [WrapCall.stream_drop_writable w.type_ h])
  | none => (w1, [])

/-- `StreamReader[T]` (typed-element variant of `ByteStreamReader`). -/
structure StreamReader (α : Type) where
  writer_dropped : Bool
  type_ : Nat
  handle : Option Nat
  finalizer : Bool

/-- `StreamReader.read(max_count)` (same control flow as the byte variant). -/
def StreamReader.read {α : Type} (r : StreamReader α) (max_count : Nat)
    (resp : Nat × List α) :
    StreamReader α × List WrapCall × Except PyErr (List α) :=
  if r.writer_dropped then (r, [], .ok [])
  else
    match r.handle with
    | none => (r, [], .error PyErr.assertionError)
    | some h =>
        let r1 := if resp.1 = _ReturnCode.DROPPED then { r with writer_dropped := true } else r
        (r1, [WrapCall.stream_read r.type_ h max_count], .ok resp.2)

/-- `StreamReader.__exit__`. -/
def StreamReader.exitScope {α : Type} (r : StreamReader α) : StreamReader α × List WrapCall :=
  let r1 := { r with finalizer := false, handle := none }
  match r.handle with
  | some h => (r1, [WrapCall.stream_drop_readable r.type_ h])
  | none => (r1, [])

/-- `StreamWriter[T]` (typed-element variant of `ByteStreamWriter`). -/
structure StreamWriter (α : Type) where
  reader_dropped : Bool
  type_ : Nat
  handle : Option Nat
  finalizer : Bool

/-- `StreamWriter.write(source)` (same control flow as the byte variant). -/
def StreamWriter.write {α : Type} (w : StreamWriter α) (source : List α)
    (resp : Nat × Nat) :
    StreamWriter α × List WrapCall × Except PyErr Nat :=
  if w.reader_dropped then (w, [], .ok 0)
  else
    match w.handle with
    | none => (w, [], .error PyErr.assertionError)
    | some h =>
        let w1 := if resp.1 = _ReturnCode.DROPPED then { w with reader_dropped := true } else w
        (w1, [WrapCall.stream_write w.type_ h source.length], .ok resp.2)

/-- `StreamWriter.write_all(source)` (same loop as the byte variant). -/
def StreamWriter.write_all {α : Type} (w : StreamWriter α) (source : List α) :
    List (Nat × Nat) → StreamWriter α × List WrapCall × Except PyErr Nat
  | [] =>
      if 0 < source.length && !w.reader_dropped then (w, [], .error PyErr.fuelOut)
      else (w, [], .ok 0)
  | resp :: rest =>
      if 0 < source.length && !w.reader_dropped then
        match StreamWriter.write w source resp with
        | (w1, tr, .error e) => (w1, tr, .error e)
        | (w1, tr, .ok count) =>
            match StreamWriter.write_all w1 (source.drop count) rest with
            | (w2, tr2, .error e) => (w2, tr ++ tr2, .error e)
            | (w2, tr2, .ok total) => (w2, tr ++ tr2, .ok (count + total))
      else (w, [], .ok 0)

/-- `StreamWriter.__exit__`. -/
def StreamWriter.exitScope {α : Type} (w : StreamWriter α) : StreamWriter α × List WrapCall :=
  let w1 := { w with finalizer := false, handle := none }
  match w.handle with
  | some h => (w1, [WrapCall.stream_drop_writable w.type_ h])
  | none => (w1, [])

/-- `FutureReader[T]`: `type_`, optional `handle`, finalizer flag. -/
structure FutureReader where
  type_ : Nat
  handle : Option Nat
  finalizer : Bool

/-- `FutureReader.read()`: detach the finalizer and consume the handle
first (so a re-entrant read fails fast), then await the host read and
release the handle; the oracle gives the value the future yields. -/
def FutureReader.read (fr : FutureReader) (value : Nat) :
    FutureReader × List WrapCall × Except PyErr Nat :=
  let fr1 := { fr with finalizer := false, handle := none }
  match fr.handle with
  | some h =>
      (fr1, [WrapCall.future_read fr.type_ h, WrapCall.future_drop_readable fr.type_ h],
       .ok value)
  | none => (fr1, [], .error PyErr.assertionError)

/-- `FutureReader.__exit__`: only if the handle is still present, detach
the finalizer, consume the handle and release it. -/
def FutureReader.exitScope (fr : FutureReader) : FutureReader × List WrapCall :=
  match fr.handle with
  | some h =>
      ({ fr with finalizer := false, handle := none },
       [WrapCall.future_drop_readable fr.type_ h])
  | none => (fr, [])

/-- `FutureWriter[T]`: `type_`, optional `handle`, the `default` value
producer (modelled by the value it returns), and the finalizer flag. -/
structure FutureWriter where
  type_ : Nat
  handle : Option Nat
  default : Nat
  finalizer : Bool

/-- `FutureWriter.write(value)`: detach the finalizer and consume the
handle before awaiting; on a consumed wrapper fail fast with no host call.
Otherwise await the host write, release the handle, and map the delivered
status: `COMPLETED ↦ true`, `DROPPED ↦ false`, `CANCELLED` fails fast
(unimplemented), anything else is an assertion failure. -/
def FutureWriter.write (fw : FutureWriter) (value : Nat) (code : Nat) :
    FutureWriter × List WrapCall × Except PyErr Bool :=
  let fw1 := { fw with finalizer := false, handle := none }
  match fw.handle with
  | none => (fw1, [], .error PyErr.assertionError)
  | some h =>
      let tr := [WrapCall.future_write fw.type_ h value, WrapCall.future_drop_writable fw.type_ h]
      if code = _ReturnCode.COMPLETED then (fw1, tr, .ok true)
      else if code = _ReturnCode.DROPPED then (fw1, tr, .ok false)
      else if code = _ReturnCode.CANCELLED then (fw1, tr, .error PyErr.notImplementedError)
      else (fw1, tr, .error PyErr.assertionError)

/-- `FutureWriter.__exit__`: if the handle is still present, `spawn` a
best-effort write of the default value (the handle itself is consumed only
when that spawned write runs). -/
def FutureWriter.exitScope (fw : FutureWriter) : FutureWriter × List WrapCall :=
  match fw.handle with
  | some _ => (fw, [WrapCall.spawn_default_write fw.type_ fw.default])
  | none => (fw, [])

/-- The number of host handle releases (drop calls) in a wrapper trace. -/
def dropCalls : List WrapCall → Nat
  | [] => 0
  | c :: rest =>
      (match c with
       | WrapCall.stream_drop_readable _ _ => 1
       | WrapCall.stream_drop_writable _ _ => 1
       | WrapCall.future_drop_readable _ _ => 1
       | WrapCall.future_drop_writable _ _ => 1
       | _ => 0) + dropCalls rest

/-- A peer that accepts in chunks no larger than what is offered: each
response's accepted count is at most the length remaining at that point. -/
def chunksFit : Nat → List (Nat × Nat) → Bool
  | _, [] => true
  | len, (_, count) :: rest => decide (count ≤ len) && chunksFit (len - count) rest

/-- Host calls that drop a waitable set. -/
def isSetDrop : HostCall → Bool
  | HostCall.waitable_set_drop _ => true
  | _ => false

/-- Host calls that store the root-task state in the context cell. -/
def isCtxStore : HostCall → Bool
  | HostCall.context_set true => true
  | _ => false

/-- Host calls that create a waitable set. -/
def isSetNew : HostCall → Bool
  | HostCall.waitable_set_new _ => true
  | _ => false

/-- The claim's class of coroutines: every awaited bridge result along the
executed path is immediate (`Ok`). -/
def Coro.allImmediate : Coro → Bool
  | Coro.ret => true
  | Coro.raiseErr => true
  | Coro.raiseOther => true
  | Coro.awaitRes (BridgeRes.ok v) k => (k v).allImmediate
  | Coro.awaitRes (BridgeRes.pending _ _) _ => false
  | Coro.doSpawn c k => c.allImmediate && k.allImmediate

/-- All awaited bridge results immediate, and no failure escapes into
`_Loop.exception`: the root (flag `true`) may raise `Err` (delivered via
`task_return`) but nothing else, while spawned work (flag `false`) must not
raise at all, since `_wrap_spawned` stores any exception in
`_Loop.exception`, which `_Loop.poll` re-raises. -/
def Coro.immOk : Bool → Coro → Bool
  | _, Coro.ret => true
  | isRoot, Coro.raiseErr => isRoot
  | _, Coro.raiseOther => false
  | isRoot, Coro.awaitRes (BridgeRes.ok v) k => Coro.immOk isRoot (k v)
  | _, Coro.awaitRes (BridgeRes.pending _ _) _ => false
  | isRoot, Coro.doSpawn c k => Coro.immOk false c && Coro.immOk isRoot k

/-- Size of the executed path of a coroutine (immediate awaits followed,
pending awaits cut off); bounds the drain work a ready task can cause. -/
def Coro.pathSize : Coro → Nat
  | Coro.ret => 1
  | Coro.raiseErr => 1
  | Coro.raiseOther => 1
  | Coro.awaitRes (BridgeRes.ok v) k => 1 + (k v).pathSize
  | Coro.awaitRes (BridgeRes.pending _ _) _ => 1
  | Coro.doSpawn c k => 1 + c.pathSize + k.pathSize

/-- Total path size of a ready queue. -/
def handlesSize (l : List HandleEntry) : Nat := (l.map (fun t => t.2.pathSize)).sum

/-- Whether a task kind is the root wrapping. -/
def TaskKind.isRoot : TaskKind → Bool
  | TaskKind.root _ _ => true
  | TaskKind.spawned => false

/-- `true` on `Except.ok`. -/
def exceptOk {ε α : Type} : Except ε α → Bool
  | .ok _ => true
  | .error _ => false

/-- The `futures` dict size after a successful task step. -/
def okFuturesLen : Except PyErr Machine → Option Nat
  | .ok st => some st.fs.futures.length
  | .error _ => none

/-- Machines the host can observe: the result of a `first_poll`, or of a
`callback` invoked on an observable machine. -/
inductive ObsReach (pgr : Nat → Nat → Nat) : Machine → Prop where
  | first (fuel ei b : Nat) (co : Coro) (st : Machine) (r : Nat) :
      first_poll pgr fuel ei b co = .ok (st, r) → ObsReach pgr st
  | step (st : Machine) (fuel e0 e1 e2 : Nat) (st' : Machine) (r : Nat) :
      ObsReach pgr st → callback pgr fuel e0 e1 e2 st = .ok (st', r) → ObsReach pgr st'

/-- A concrete `promise_get_result` used in witnesses. -/
def pgr0 : Nat → Nat → Nat := fun ev _ => ev

/-- The machine observed after `first_poll` of an immediately returning
root coroutine. -/
def stExit : Machine :=
  { fs := { waitable_set := none, futures := [], handles := [], pending_count := 0 },
    loopExc := false, nextSet := 0, ctxCell := false,
    trace := [HostCall.call_task_return 0 0 true] }

/-- The machine observed after `first_poll` of a root coroutine suspended
on waitable 5. -/
def stWait : Machine :=
  { fs := { waitable_set := some 0,
            futures := [(5, (TaskKind.root 0 0, fun _ => Coro.ret))],
            handles := [], pending_count := 1 },
    loopExc := false, nextSet := 1, ctxCell := true,
    trace := [HostCall.waitable_set_new 0, HostCall.waitable_join 5 0,
              HostCall.context_set true] }

/-- The machine observed after the host resolves `stWait`'s waitable. -/
def stAfter : Machine :=
  { fs := { waitable_set := some 0, futures := [], handles := [], pending_count := 0 },
    loopExc := false, nextSet := 1, ctxCell := false,
    trace := [HostCall.waitable_set_new 0, HostCall.waitable_join 5 0,
              HostCall.context_set true, HostCall.context_set false,
              HostCall.waitable_join 5 0, HostCall.call_task_return 0 0 true,
              HostCall.waitable_set_drop 0] }

/-- A machine in which waitable 5 already has a registered completion
signal. -/
def stDouble : Machine :=
  { fs := { waitable_set := some 0,
            futures := [(5, (TaskKind.spawned, fun _ => Coro.ret))],
            handles := [], pending_count := 2 },
    loopExc := false, nextSet := 1, ctxCell := false, trace := [] }

/-- Decomposition of the WAIT return code: the low four bits carry the
callback code 2 and the remaining bits the waitable-set id. -/
lemma wait_code_eq (s : Nat) : _CallbackCode.WAIT ||| (s <<< 4) = 16 * s + 2 := by
  have h4 : s <<< 4 = 16 * s := by rw [Nat.shiftLeft_eq]; ring
  rw [_CallbackCode.WAIT, h4]
  apply Nat.eq_of_testBit_eq
  intro i
  rw [Nat.testBit_lor]
  rcases Nat.lt_or_ge i 4 with hi | hi
  · interval_cases i <;> simp [Nat.testBit_to_div_mod] <;> omega
  · obtain ⟨j, rfl⟩ : ∃ j, i = 4 + j := ⟨i - 4, by omega⟩
    have hpow : (16 : Nat) ≤ 2 ^ (4 + j) := by
      calc (16 : Nat) = 2 ^ 4 := by norm_num
      _ ≤ 2 ^ (4 + j) := Nat.pow_le_pow_right (by norm_num) (by omega)
    have h1 : Nat.testBit 2 (4 + j) = false := by
      have h0 : (2 : Nat) / 2 ^ (4 + j) = 0 := Nat.div_eq_of_lt (by omega)
      simp [Nat.testBit_to_div_mod, h0]
    have hsplit : (2 : Nat) ^ (4 + j) = 16 * 2 ^ j := by
      rw [pow_add]; norm_num
    have h2 : (16 * s + 2) / 2 ^ (4 + j) = s / 2 ^ j := by
      rw [hsplit, ← Nat.div_div_eq_div_mul]
      congr 1
      omega
    have h3 : (16 * s) / 2 ^ (4 + j) = s / 2 ^ j := by
      rw [hsplit, ← Nat.div_div_eq_div_mul]
      congr 1
      omega
    rw [h1]
    simp [Nat.testBit_to_div_mod, h2, h3]

/-- The shifted-out waitable-set id is recovered by a right shift. -/
lemma wait_code_shiftRight (s : Nat) : (16 * s + 2) >>> 4 = s := by
  rw [Nat.shiftRight_eq_div_pow]
  norm_num
  omega

/-- A successful `decrement_pending` certifies a positive count and
decrements it. -/
lemma decrement_pending_ok {st st' : Machine} (h : decrement_pending st = .ok st') :
    0 < st.fs.pending_count ∧
    st' = { st with fs := { st.fs with pending_count := st.fs.pending_count - 1 } } := by
  unfold decrement_pending at h
  split at h
  next hp =>
    injection h with h
    exact ⟨hp, h.symm⟩
  next hp => exact (Except.noConfusion h)

/-- `decrement_pending` succeeds whenever the count is positive. -/
lemma decrement_pending_of_pos {st : Machine} (hp : 0 < st.fs.pending_count) :
    decrement_pending st =
      .ok { st with fs := { st.fs with pending_count := st.fs.pending_count - 1 } } := by
  unfold decrement_pending
  rw [if_pos hp]

/-- Dict assignment grows the `futures` dict only when the key is new. -/
lemma setFuture_length (w : Nat) (s : Susp) :
    ∀ l : List (Nat × Susp), (setFuture w s l).length =
      if hasFuture w l = true then l.length else l.length + 1 := by
  intro l
  induction l with
  | nil => simp [setFuture, hasFuture]
  | cons p rest ih =>
      obtain ⟨w', s'⟩ := p
      by_cases hw : w' = w
      · simp [setFuture, hasFuture, hw]
      · simp [setFuture, hasFuture, hw, ih]
        split <;> omega

/-- `futures.pop` fails exactly on unregistered keys. -/
lemma popFuture_none_iff (w : Nat) : ∀ l : List (Nat × Susp),
    popFuture w l = none ↔ hasFuture w l = false := by
  intro l
  induction l with
  | nil => simp [popFuture, hasFuture]
  | cons p rest ih =>
      obtain ⟨w', s'⟩ := p
      by_cases hw : w' = w
      · simp [popFuture, hasFuture, hw]
      · simp [popFuture, hasFuture, hw, ih, Option.map_eq_none']

/-- A successful `futures.pop` removes exactly one entry. -/
lemma popFuture_some_length (w : Nat) : ∀ (l : List (Nat × Susp)) (s : Susp)
    (rest : List (Nat × Susp)), popFuture w l = some (s, rest) →
    l.length = rest.length + 1 := by
  intro l
  induction l with
  | nil => intro s rest h; simp [popFuture] at h
  | cons p tail ih =>
      intro s rest h
      obtain ⟨w', s'⟩ := p
      by_cases hw : w' = w
      · simp [popFuture, hw] at h
        obtain ⟨h1, h2⟩ := h
        simp [← h2]
      · simp only [popFuture] at h
        rw [if_neg hw] at h
        rw [Option.map_eq_some'] at h
        obtain ⟨⟨s2, rest2⟩, hq, heq⟩ := h
        have hrest : rest = (w', s') :: rest2 := (congrArg Prod.snd heq).symm
        subst hrest
        simp [List.length_cons, ih s2 rest2 hq]

/-- What the suspending branch of `await_result` does to the machine. -/
lemma await_result_register_spec (pgr : Nat → Nat → Nat) (kind : TaskKind) (w p : Nat)
    (k : Nat → Coro) (st : Machine) :
    (await_result_register pgr kind w p k st).fs.futures =
      setFuture w (kind, fun ev => k (pgr ev p)) st.fs.futures ∧
    (await_result_register pgr kind w p k st).fs.handles = st.fs.handles ∧
    (await_result_register pgr kind w p k st).fs.pending_count = st.fs.pending_count ∧
    (await_result_register pgr kind w p k st).fs.waitable_set.isSome = true ∧
    (await_result_register pgr kind w p k st).ctxCell = st.ctxCell ∧
    (await_result_register pgr kind w p k st).loopExc = st.loopExc ∧
    (∃ ex, (await_result_register pgr kind w p k st).trace = st.trace ++ ex ∧
      ex.countP isSetDrop = 0 ∧ ex.countP isCtxStore = 0) := by
  unfold await_result_register
  cases hset : st.fs.waitable_set with
  | some s =>
      refine ⟨?_, ?_, ?_, ?_, ?_, ?_, [HostCall.waitable_join w s], ?_, ?_, ?_⟩ <;>
        simp [emit, hset, isSetDrop, isCtxStore]
  | none =>
      refine ⟨?_, ?_, ?_, ?_, ?_, ?_,
        [HostCall.waitable_set_new st.nextSet, HostCall.waitable_join w st.nextSet],
        ?_, ?_, ?_⟩ <;>
        simp [emit, hset, isSetDrop, isCtxStore]

/-- Frame conditions of one task step: the context cell is untouched and
the emitted host calls include no waitable-set drop and no context store. -/
lemma runTask_frame (pgr : Nat → Nat → Nat) :
    ∀ (c : Coro) (kind : TaskKind) (st st' : Machine),
      runTask pgr kind c st = .ok st' →
      st'.ctxCell = st.ctxCell ∧
      ∃ ex : List HostCall, st'.trace = st.trace ++ ex ∧
        ex.countP isSetDrop = 0 ∧ ex.countP isCtxStore = 0 := by
  intro c
  induction c with
  | ret =>
      intro kind st st' h
      cases kind with
      | root ei b =>
          simp only [runTask, _return_result_end] at h
          obtain ⟨hp, rfl⟩ := decrement_pending_ok h
          exact ⟨rfl, [HostCall.call_task_return ei b true], rfl,
            by simp [isSetDrop], by simp [isCtxStore]⟩
      | spawned =>
          simp only [runTask, _wrap_spawned_end] at h
          obtain ⟨hp, rfl⟩ := decrement_pending_ok h
          exact ⟨rfl, [], by simp, by simp, by simp⟩
  | raiseErr =>
      intro kind st st' h
      cases kind with
      | root ei b =>
          simp only [runTask, _return_result_end] at h
          obtain ⟨hp, rfl⟩ := decrement_pending_ok h
          exact ⟨rfl, [HostCall.call_task_return ei b false], rfl,
            by simp [isSetDrop], by simp [isCtxStore]⟩
      | spawned =>
          simp only [runTask, _wrap_spawned_fail] at h
          obtain ⟨hp, rfl⟩ := decrement_pending_ok h
          exact ⟨rfl, [], by simp, by simp, by simp⟩
  | raiseOther =>
      intro kind st st' h
      cases kind with
      | root ei b =>
          simp only [runTask, _return_result_uncaught] at h
          obtain ⟨hp, rfl⟩ := decrement_pending_ok h
          exact ⟨rfl, [], by simp, by simp, by simp⟩
      | spawned =>
          simp only [runTask, _wrap_spawned_fail] at h
          obtain ⟨hp, rfl⟩ := decrement_pending_ok h
          exact ⟨rfl, [], by simp, by simp, by simp⟩
  | awaitRes r k ih =>
      intro kind st st' h
      cases r with
      | ok v =>
          simp only [runTask] at h
          exact ih v kind st st' h
      | pending w p =>
          simp only [runTask] at h
          injection h with h
          subst h
          obtain ⟨-, -, -, -, hctx, -, hex⟩ := await_result_register_spec pgr kind w p k st
          exact ⟨hctx, hex⟩
  | doSpawn c k ihc ihk =>
      intro kind st st' h
      simp only [runTask] at h
      obtain ⟨hctx, ex, htr, h1, h2⟩ := ihk kind (spawn c st) st' h
      exact ⟨hctx, ex, htr, h1, h2⟩

/-- The counting invariant through one task step, with `m` tasks of the
current batch still to run: with the in-flight task counted, the pending
count dominates the number of live tasks, exactly when no waitable set
exists; the step always succeeds under the invariant. -/
lemma runTask_inv (pgr : Nat → Nat → Nat) :
    ∀ (c : Coro) (kind : TaskKind) (m : Nat) (st : Machine),
      (1 + (m : Int) + st.fs.handles.length + st.fs.futures.length ≤ st.fs.pending_count) →
      (st.fs.waitable_set = none →
        st.fs.pending_count = 1 + (m : Int) + st.fs.handles.length + st.fs.futures.length ∧
        st.fs.futures = []) →
      ∃ st', runTask pgr kind c st = .ok st' ∧
        ((m : Int) + st'.fs.handles.length + st'.fs.futures.length ≤ st'.fs.pending_count) ∧
        (st'.fs.waitable_set = none →
          st'.fs.pending_count = (m : Int) + st'.fs.handles.length + st'.fs.futures.length ∧
          st'.fs.futures = []) := by
  intro c
  induction c with
  | ret =>
      intro kind m st h1 h2
      have hp : 0 < st.fs.pending_count := by omega
      cases kind with
      | root ei b =>
          refine ⟨{ st with
              fs := { st.fs with pending_count := st.fs.pending_count - 1 },
              trace := st.trace ++ [HostCall.call_task_return ei b true] }, ?_, ?_, ?_⟩
          · simp [runTask, _return_result_end, emit, decrement_pending, hp]
          · simp
            omega
          · intro hset
            obtain ⟨he, hf⟩ := h2 hset
            exact ⟨by simp; omega, by simpa using hf⟩
      | spawned =>
          refine ⟨{ st with
              fs := { st.fs with pending_count := st.fs.pending_count - 1 } }, ?_, ?_, ?_⟩
          · simp [runTask, _wrap_spawned_end, decrement_pending, hp]
          · simp
            omega
          · intro hset
            obtain ⟨he, hf⟩ := h2 hset
            exact ⟨by simp; omega, by simpa using hf⟩
  | raiseErr =>
      intro kind m st h1 h2
      have hp : 0 < st.fs.pending_count := by omega
      cases kind with
      | root ei b =>
          refine ⟨{ st with
              fs := { st.fs with pending_count := st.fs.pending_count - 1 },
              trace := st.trace ++ [HostCall.call_task_return ei b false] }, ?_, ?_, ?_⟩
          · simp [runTask, _return_result_end, emit, decrement_pending, hp]
          · simp
            omega
          · intro hset
            obtain ⟨he, hf⟩ := h2 hset
            exact ⟨by simp; omega, by simpa using hf⟩
      | spawned =>
          refine ⟨{ st with
              loopExc := true,
              fs := { st.fs with pending_count := st.fs.pending_count - 1 } }, ?_, ?_, ?_⟩
          · simp [runTask, _wrap_spawned_fail, decrement_pending, hp]
          · simp
            omega
          · intro hset
            obtain ⟨he, hf⟩ := h2 hset
            exact ⟨by simp; omega, by simpa using hf⟩
  | raiseOther =>
      intro kind m st h1 h2
      have hp : 0 < st.fs.pending_count := by omega
      cases kind with
      | root ei b =>
          refine ⟨{ st with
              loopExc := true,
              fs := { st.fs with pending_count := st.fs.pending_count - 1 } }, ?_, ?_, ?_⟩
          · simp [runTask, _return_result_uncaught, decrement_pending, hp]
          · simp
            omega
          · intro hset
            obtain ⟨he, hf⟩ := h2 hset
            exact ⟨by simp; omega, by simpa using hf⟩
      | spawned =>
          refine ⟨{ st with
              loopExc := true,
              fs := { st.fs with pending_count := st.fs.pending_count - 1 } }, ?_, ?_, ?_⟩
          · simp [runTask, _wrap_spawned_fail, decrement_pending, hp]
          · simp
            omega
          · intro hset
            obtain ⟨he, hf⟩ := h2 hset
            exact ⟨by simp; omega, by simpa using hf⟩
  | awaitRes r k ih =>
      intro kind m st h1 h2
      cases r with
      | ok v =>
          simpa only [runTask] using ih v kind m st h1 h2
      | pending w p =>
          obtain ⟨hfut, hh, hp, hsome, -, -, -⟩ :=
            await_result_register_spec pgr kind w p k st
          refine ⟨await_result_register pgr kind w p k st, by simp [runTask], ?_, ?_⟩
          · rw [hfut, hh, hp, setFuture_length]
            split
            · omega
            · omega
          · intro hset
            simp only [hset] at hsome
            simp at hsome
  | doSpawn c k ihc ihk =>
      intro kind m st h1 h2
      have h1' : 1 + (m : Int) + (spawn c st).fs.handles.length +
          (spawn c st).fs.futures.length ≤ (spawn c st).fs.pending_count := by
        simp [spawn]
        omega
      have h2' : (spawn c st).fs.waitable_set = none →
          (spawn c st).fs.pending_count = 1 + (m : Int) + (spawn c st).fs.handles.length +
            (spawn c st).fs.futures.length ∧ (spawn c st).fs.futures = [] := by
        intro hset
        obtain ⟨he, hf⟩ := h2 (by simpa [spawn] using hset)
        constructor
        · simp [spawn]
          omega
        · simpa [spawn] using hf
      obtain ⟨st', hrun, ha, hb⟩ := ihk kind m (spawn c st) h1' h2'
      exact ⟨st', by simp only [runTask]; exact hrun, ha, hb⟩

/-- Frame conditions of running one batch of handles. -/
lemma runHandles_frame (pgr : Nat → Nat → Nat) :
    ∀ (batch : List HandleEntry) (st st' : Machine),
      runHandles pgr batch st = .ok st' →
      st'.ctxCell = st.ctxCell ∧
      ∃ ex : List HostCall, st'.trace = st.trace ++ ex ∧
        ex.countP isSetDrop = 0 ∧ ex.countP isCtxStore = 0 := by
  intro batch
  induction batch with
  | nil =>
      intro st st' h
      simp only [runHandles] at h
      injection h with h
      subst h
      exact ⟨rfl, [], by simp, by simp, by simp⟩
  | cons t rest ih =>
      intro st st' h
      obtain ⟨kind, c⟩ := t
      simp only [runHandles] at h
      cases hrt : runTask pgr kind c st with
      | error e => rw [hrt] at h; exact (Except.noConfusion h)
      | ok st1 =>
          rw [hrt] at h
          obtain ⟨hctx1, ex1, htr1, ha1, hb1⟩ := runTask_frame pgr c kind st st1 hrt
          obtain ⟨hctx2, ex2, htr2, ha2, hb2⟩ := ih st1 st' h
          refine ⟨hctx2.trans hctx1, ex1 ++ ex2, ?_, ?_, ?_⟩
          · rw [htr2, htr1, List.append_assoc]
          · simp [List.countP_append, ha1, ha2]
          · simp [List.countP_append, hb1, hb2]

/-- The counting invariant through one batch of handles. -/
lemma runHandles_inv (pgr : Nat → Nat → Nat) :
    ∀ (batch : List HandleEntry) (st : Machine),
      ((batch.length : Int) + st.fs.handles.length + st.fs.futures.length ≤
        st.fs.pending_count) →
      (st.fs.waitable_set = none →
        st.fs.pending_count = (batch.length : Int) + st.fs.handles.length +
          st.fs.futures.length ∧ st.fs.futures = []) →
      ∃ st', runHandles pgr batch st = .ok st' ∧
        ((st'.fs.handles.length : Int) + st'.fs.futures.length ≤ st'.fs.pending_count) ∧
        (st'.fs.waitable_set = none →
          st'.fs.pending_count = (st'.fs.handles.length : Int) + st'.fs.futures.length ∧
          st'.fs.futures = []) := by
  intro batch
  induction batch with
  | nil =>
      intro st h1 h2
      refine ⟨st, by simp [runHandles], ?_, ?_⟩
      · simp at h1
        omega
      · intro hset
        obtain ⟨he, hf⟩ := h2 hset
        simp at he
        exact ⟨by omega, hf⟩
  | cons t rest ih =>
      intro st h1 h2
      obtain ⟨kind, c⟩ := t
      simp only [List.length_cons] at h1
      obtain ⟨st1, hrt, ha, hb⟩ := runTask_inv pgr c kind rest.length st
        (by push_cast at h1 ⊢; omega)
        (fun hset => by
          obtain ⟨he, hf⟩ := h2 hset
          simp only [List.length_cons] at he
          exact ⟨by push_cast at he ⊢; omega, hf⟩)
      obtain ⟨st', hrun, ha', hb'⟩ := ih st1 ha hb
      refine ⟨st', ?_, ha', hb'⟩
      simp only [runHandles]
      rw [hrt]
      exact hrun

/-- Frame conditions of the drain loop; on success the ready queue has
been fully drained. -/
lemma loop_poll_frame (pgr : Nat → Nat → Nat) :
    ∀ (fuel : Nat) (st st' : Machine),
      loop_poll pgr fuel st = .ok st' →
      st'.fs.handles = [] ∧
      st'.ctxCell = st.ctxCell ∧
      ∃ ex : List HostCall, st'.trace = st.trace ++ ex ∧
        ex.countP isSetDrop = 0 ∧ ex.countP isCtxStore = 0 := by
  intro fuel
  induction fuel with
  | zero => intro st st' h; exact (Except.noConfusion h)
  | succ n ih =>
      intro st st' h
      simp only [loop_poll] at h
      cases hrun : runHandles pgr st.fs.handles
          { st with fs := { st.fs with handles := [] } } with
      | error e =>
          simp only [hrun] at h
          exact (Except.noConfusion h)
      | ok st2 =>
          simp only [hrun] at h
          obtain ⟨hctx2, ex2, htr2, ha2, hb2⟩ := runHandles_frame pgr _ _ _ hrun
          by_cases hexc : st2.loopExc = true
          · rw [if_pos hexc] at h; exact (Except.noConfusion h)
          · rw [if_neg hexc] at h
            by_cases hemp : (st.fs.handles.isEmpty && st2.fs.handles.isEmpty) = true
            · rw [if_pos hemp] at h
              injection h with h
              subst h
              simp only [Bool.and_eq_true] at hemp
              obtain ⟨h1e, h2e⟩ := hemp
              exact ⟨List.isEmpty_iff.mp h2e, hctx2.trans rfl, ex2, htr2.trans rfl,
                ha2, hb2⟩
            · rw [if_neg hemp] at h
              obtain ⟨hh, hctx3, ex3, htr3, ha3, hb3⟩ := ih st2 st' h
              refine ⟨hh, hctx3.trans (hctx2.trans rfl), ex2 ++ ex3, ?_, ?_, ?_⟩
              · rw [htr3, htr2, List.append_assoc]
              · simp [List.countP_append, ha2, ha3]
              · simp [List.countP_append, hb2, hb3]

/-- The counting invariant through the drain loop. -/
lemma loop_poll_inv (pgr : Nat → Nat → Nat) :
    ∀ (fuel : Nat) (st st' : Machine),
      loop_poll pgr fuel st = .ok st' →
      ((st.fs.handles.length : Int) + st.fs.futures.length ≤ st.fs.pending_count) →
      (st.fs.waitable_set = none →
        st.fs.pending_count = (st.fs.handles.length : Int) + st.fs.futures.length ∧
        st.fs.futures = []) →
      ((st'.fs.handles.length : Int) + st'.fs.futures.length ≤ st'.fs.pending_count) ∧
      (st'.fs.waitable_set = none →
        st'.fs.pending_count = (st'.fs.handles.length : Int) + st'.fs.futures.length ∧
        st'.fs.futures = []) := by
  intro fuel
  induction fuel with
  | zero => intro st st' h _ _; exact (Except.noConfusion h)
  | succ n ih =>
      intro st st' h h1 h2
      simp only [loop_poll] at h
      obtain ⟨st2, hrun, ha, hb⟩ := runHandles_inv pgr st.fs.handles
        { st with fs := { st.fs with handles := [] } }
        (by simp; omega)
        (fun hset => by
          obtain ⟨he, hf⟩ := h2 (by simpa using hset)
          refine ⟨?_, by simpa using hf⟩
          simp
          omega)
      simp only [hrun] at h
      by_cases hexc : st2.loopExc = true
      · rw [if_pos hexc] at h; exact (Except.noConfusion h)
      · rw [if_neg hexc] at h
        by_cases hemp : (st.fs.handles.isEmpty && st2.fs.handles.isEmpty) = true
        · rw [if_pos hemp] at h
          injection h with h
          subst h
          exact ⟨ha, hb⟩
        · rw [if_neg hemp] at h
          exact ih st2 st' h ha hb

/-- Full behaviour of `_poll` on success: the queue is drained; the result
is EXIT exactly when the pending count is zero; on EXIT the context cell
is untouched and the waitable set, when one exists, is dropped exactly
once; otherwise the result is WAIT combined with the set id and the state
is parked in the context cell. -/
lemma _poll_spec (pgr : Nat → Nat → Nat) (fuel : Nat) (st st' : Machine) (r : Nat)
    (h : _poll pgr fuel st = .ok (st', r)) :
    st'.fs.handles = [] ∧
    (r = _CallbackCode.EXIT ↔ st'.fs.pending_count = 0) ∧
    (r = _CallbackCode.EXIT →
      st'.ctxCell = st.ctxCell ∧
      st'.trace.countP isCtxStore = st.trace.countP isCtxStore ∧
      (st'.fs.waitable_set.isSome = true →
        st'.trace.countP isSetDrop = st.trace.countP isSetDrop + 1) ∧
      (st'.fs.waitable_set = none →
        st'.trace.countP isSetDrop = st.trace.countP isSetDrop)) ∧
    (r ≠ _CallbackCode.EXIT →
      ∃ s : Nat, st'.fs.waitable_set = some s ∧ r = _CallbackCode.WAIT ||| (s <<< 4) ∧
        st'.ctxCell = true ∧
        st'.trace.countP isCtxStore = st.trace.countP isCtxStore + 1 ∧
        st'.trace.countP isSetDrop = st.trace.countP isSetDrop) := by
  unfold _poll at h
  cases hlp : loop_poll pgr fuel st with
  | error e =>
      simp only [hlp] at h
      exact (Except.noConfusion h)
  | ok st1 =>
      simp only [hlp] at h
      obtain ⟨hh1, hctx1, ex1, htr1, ha1, hb1⟩ := loop_poll_frame pgr fuel st st1 hlp
      by_cases hpend : st1.fs.pending_count = 0
      · rw [if_pos hpend] at h
        cases hset : st1.fs.waitable_set with
        | some s =>
            simp only [hset] at h
            injection h with h
            injection h with hst hr
            subst hst
            subst hr
            refine ⟨by simpa [emit] using hh1, by simp [emit, _CallbackCode.EXIT, hpend],
              fun _ => ⟨by simpa [emit] using hctx1, ?_, fun _ => ?_, fun hn => ?_⟩,
              fun hr => absurd rfl hr⟩
            · simp [emit, htr1, List.countP_append, hb1, isCtxStore]
            · simp [emit, htr1, List.countP_append, ha1, isSetDrop]
            · rw [show (emit (HostCall.waitable_set_drop s) st1).fs.waitable_set =
                st1.fs.waitable_set from rfl, hset] at hn
              exact (Option.noConfusion hn)
        | none =>
            simp only [hset] at h
            injection h with h
            injection h with hst hr
            subst hst
            subst hr
            refine ⟨hh1, by simp [_CallbackCode.EXIT, hpend],
              fun _ => ⟨hctx1, ?_, fun hs => ?_, fun _ => ?_⟩,
              fun hr => absurd rfl hr⟩
            · simp [htr1, List.countP_append, hb1]
            · simp only [hset] at hs
              exact (Bool.noConfusion hs)
            · simp [htr1, List.countP_append, ha1]
      · rw [if_neg hpend] at h
        cases hset : st1.fs.waitable_set with
        | none => simp only [hset] at h; exact (Except.noConfusion h)
        | some s =>
            simp only [hset] at h
            injection h with h
            injection h with hst hr
            subst hst
            subst hr
            have hne : _CallbackCode.WAIT ||| (s <<< 4) ≠ _CallbackCode.EXIT := by
              rw [wait_code_eq, _CallbackCode.EXIT]
              omega
            refine ⟨by simpa [emit] using hh1, ?_, fun hr => absurd hr hne,
              fun _ => ⟨s, by simpa [emit] using hset, rfl, rfl, ?_, ?_⟩⟩
            · constructor
              · intro hr
                exact absurd hr hne
              · intro hp
                exact absurd (by simpa [emit] using hp) hpend
            · simp [emit, htr1, List.countP_append, hb1, isCtxStore]
            · simp [emit, htr1, List.countP_append, ha1, isSetDrop]

/-- The counting invariant through `_poll`. -/
lemma _poll_inv (pgr : Nat → Nat → Nat) (fuel : Nat) (st st' : Machine) (r : Nat)
    (h : _poll pgr fuel st = .ok (st', r))
    (h1 : (st.fs.handles.length : Int) + st.fs.futures.length ≤ st.fs.pending_count)
    (h2 : st.fs.waitable_set = none →
      st.fs.pending_count = (st.fs.handles.length : Int) + st.fs.futures.length ∧
      st.fs.futures = []) :
    ((st'.fs.handles.length : Int) + st'.fs.futures.length ≤ st'.fs.pending_count) ∧
    (st'.fs.waitable_set = none →
      st'.fs.pending_count = (st'.fs.handles.length : Int) + st'.fs.futures.length ∧
      st'.fs.futures = []) := by
  unfold _poll at h
  cases hlp : loop_poll pgr fuel st with
  | error e =>
      simp only [hlp] at h
      exact (Except.noConfusion h)
  | ok st1 =>
      simp only [hlp] at h
      obtain ⟨ha, hb⟩ := loop_poll_inv pgr fuel st st1 hlp h1 h2
      have hfs : st'.fs = st1.fs := by
        by_cases hpend : st1.fs.pending_count = 0
        · rw [if_pos hpend] at h
          cases hset : st1.fs.waitable_set with
          | some s =>
              simp only [hset] at h
              injection h with h
              injection h with hst hr
              rw [← hst]
              simp [emit]
          | none =>
              simp only [hset] at h
              injection h with h
              injection h with hst hr
              rw [← hst]
        · rw [if_neg hpend] at h
          cases hset : st1.fs.waitable_set with
          | none => simp only [hset] at h; exact (Except.noConfusion h)
          | some s =>
              simp only [hset] at h
              injection h with h
              injection h with hst hr
              rw [← hst]
              simp [emit]
      rw [hfs]
      exact ⟨ha, hb⟩

/-- The counting invariant through event dispatch: resolving a completion
signal moves one suspended task from `futures` to the ready queue. -/
lemma dispatchEvent_inv (e0 e1 e2 : Nat) (st st1 : Machine)
    (h : dispatchEvent e0 e1 e2 st = .ok st1)
    (h1 : (st.fs.handles.length : Int) + st.fs.futures.length ≤ st.fs.pending_count)
    (h2 : st.fs.waitable_set = none →
      st.fs.pending_count = (st.fs.handles.length : Int) + st.fs.futures.length ∧
      st.fs.futures = []) :
    ((st1.fs.handles.length : Int) + st1.fs.futures.length ≤ st1.fs.pending_count) ∧
    (st1.fs.waitable_set = none →
      st1.fs.pending_count = (st1.fs.handles.length : Int) + st1.fs.futures.length ∧
      st1.fs.futures = []) := by
  simp only [dispatchEvent] at h
  split_ifs at h
  all_goals try (injection h with h; subst h; exact ⟨h1, h2⟩)
  · simp only [emit] at h
    cases hpop : popFuture e1 st.fs.futures with
    | none => simp only [hpop] at h; exact (Except.noConfusion h)
    | some q =>
        obtain ⟨susp, rest⟩ := q
        simp only [hpop] at h
        injection h with h
        subst h
        have hlen := popFuture_some_length e1 st.fs.futures susp rest hpop
        refine ⟨?_, ?_⟩
        · simp
          omega
        · intro hset
          obtain ⟨he, hf⟩ := h2 (by simpa using hset)
          rw [hf] at hpop
          simp [popFuture] at hpop
  · simp only [emit] at h
    cases hpop : popFuture e1 st.fs.futures with
    | none => simp only [hpop] at h; exact (Except.noConfusion h)
    | some q =>
        obtain ⟨susp, rest⟩ := q
        simp only [hpop] at h
        injection h with h
        subst h
        have hlen := popFuture_some_length e1 st.fs.futures susp rest hpop
        refine ⟨?_, ?_⟩
        · simp
          omega
        · intro hset
          obtain ⟨he, hf⟩ := h2 (by simpa using hset)
          rw [hf] at hpop
          simp [popFuture] at hpop

/-- A successful `callback` certifies an occupied context cell and factors
into an event dispatch followed by `_poll`. -/
lemma callback_decomp (pgr : Nat → Nat → Nat) (fuel e0 e1 e2 : Nat) (st st' : Machine)
    (r : Nat) (h : callback pgr fuel e0 e1 e2 st = .ok (st', r)) :
    st.ctxCell = true ∧
    ∃ st1, dispatchEvent e0 e1 e2
        (emit (HostCall.context_set false) { st with ctxCell := false }) = .ok st1 ∧
      _poll pgr fuel st1 = .ok (st', r) := by
  simp only [callback] at h
  by_cases hc : st.ctxCell = false
  · rw [if_pos hc] at h
    exact (Except.noConfusion h)
  · rw [if_neg hc] at h
    cases hdis : dispatchEvent e0 e1 e2
        (emit (HostCall.context_set false) { st with ctxCell := false }) with
    | error e =>
        simp only [hdis] at h
        exact (Except.noConfusion h)
    | ok st1 =>
        simp only [hdis] at h
        exact ⟨by simpa using hc, st1, rfl, h⟩

/-- The counting invariant holds at every observable machine. -/
lemma ObsReach_inv (pgr : Nat → Nat → Nat) (st : Machine) (h : ObsReach pgr st) :
    ((st.fs.handles.length : Int) + st.fs.futures.length ≤ st.fs.pending_count) ∧
    (st.fs.waitable_set = none →
      st.fs.pending_count = (st.fs.handles.length : Int) + st.fs.futures.length ∧
      st.fs.futures = []) := by
  induction h with
  | first fuel ei b co st r hfp =>
      exact _poll_inv pgr fuel (machineInit ei b co) st r hfp
        (by simp [machineInit]) (fun _ => by simp [machineInit])
  | step st fuel e0 e1 e2 st' r hobs hcb ih =>
      obtain ⟨hctx, st1, hdis, hpoll⟩ := callback_decomp pgr fuel e0 e1 e2 st st' r hcb
      obtain ⟨hi1, hi2⟩ := dispatchEvent_inv e0 e1 e2 _ st1 hdis
        (by simpa [emit] using ih.1)
        (fun hset => by
          obtain ⟨he, hf⟩ := ih.2 (by simpa [emit] using hset)
          exact ⟨by simpa [emit] using he, by simpa [emit] using hf⟩)
      exact _poll_inv pgr fuel st1 st' r hpoll hi1 hi2

/-- Every coroutine path has positive size. -/
lemma Coro.pathSize_pos (c : Coro) : 1 ≤ c.pathSize := by
  cases c with
  | ret => simp [Coro.pathSize]
  | raiseErr => simp [Coro.pathSize]
  | raiseOther => simp [Coro.pathSize]
  | awaitRes r k =>
      cases r with
      | ok v => simp only [Coro.pathSize]; omega
      | pending w p => simp [Coro.pathSize]
  | doSpawn c k => simp only [Coro.pathSize]; omega

lemma handlesSize_nil : handlesSize [] = 0 := rfl

lemma handlesSize_cons (t : HandleEntry) (l : List HandleEntry) :
    handlesSize (t :: l) = t.2.pathSize + handlesSize l := by
  simp [handlesSize]

lemma handlesSize_append (l l' : List HandleEntry) :
    handlesSize (l ++ l') = handlesSize l + handlesSize l' := by
  simp [handlesSize]

/-- One step of a well-behaved immediate task: it completes without
suspending, decrements the pending count once, enqueues only smaller
well-behaved spawned tasks, and never creates a waitable set or stores an
exception. -/
lemma runTask_imm (pgr : Nat → Nat → Nat) :
    ∀ (c : Coro) (kind : TaskKind) (st : Machine),
      Coro.immOk kind.isRoot c = true →
      st.fs.futures = [] → st.fs.waitable_set = none → st.loopExc = false →
      0 < st.fs.pending_count →
      ∃ st' newTasks, runTask pgr kind c st = .ok st' ∧
        st'.fs.handles = st.fs.handles ++ newTasks ∧
        (∀ t ∈ newTasks, t.1 = TaskKind.spawned ∧ Coro.immOk false t.2 = true) ∧
        handlesSize newTasks + 1 ≤ c.pathSize ∧
        st'.fs.pending_count = st.fs.pending_count - 1 + newTasks.length ∧
        st'.fs.futures = [] ∧ st'.fs.waitable_set = none ∧ st'.loopExc = false ∧
        st'.trace.countP isSetNew = st.trace.countP isSetNew := by
  intro c
  induction c with
  | ret =>
      intro kind st himm hf hset hexc hp
      cases kind with
      | root ei b =>
          refine ⟨{ st with
              fs := { st.fs with pending_count := st.fs.pending_count - 1 },
              trace := st.trace ++ [HostCall.call_task_return ei b true] }, [],
            ?_, by simp, by simp, ?_, by simp, by simpa using hf,
            by simpa using hset, by simpa using hexc, ?_⟩
          · simp [runTask, _return_result_end, emit, decrement_pending, hp]
          · simp [Coro.pathSize, handlesSize]
          · simp [List.countP_append, isSetNew]
      | spawned =>
          refine ⟨{ st with
              fs := { st.fs with pending_count := st.fs.pending_count - 1 } }, [],
            ?_, by simp, by simp, ?_, by simp, by simpa using hf,
            by simpa using hset, by simpa using hexc, by simp⟩
          · simp [runTask, _wrap_spawned_end, decrement_pending, hp]
          · simp [Coro.pathSize, handlesSize]
  | raiseErr =>
      intro kind st himm hf hset hexc hp
      cases kind with
      | root ei b =>
          refine ⟨{ st with
              fs := { st.fs with pending_count := st.fs.pending_count - 1 },
              trace := st.trace ++ [HostCall.call_task_return ei b false] }, [],
            ?_, by simp, by simp, ?_, by simp, by simpa using hf,
            by simpa using hset, by simpa using hexc, ?_⟩
          · simp [runTask, _return_result_end, emit, decrement_pending, hp]
          · simp [Coro.pathSize, handlesSize]
          · simp [List.countP_append, isSetNew]
      | spawned =>
          simp [TaskKind.isRoot, Coro.immOk] at himm
  | raiseOther =>
      intro kind st himm hf hset hexc hp
      cases kind <;> simp [TaskKind.isRoot, Coro.immOk] at himm
  | awaitRes r k ih =>
      intro kind st himm hf hset hexc hp
      cases r with
      | ok v =>
          simp only [Coro.immOk] at himm
          obtain ⟨st', newTasks, heq, hrest⟩ := ih v kind st himm hf hset hexc hp
          refine ⟨st', newTasks, ?_, hrest.1, hrest.2.1, ?_, hrest.2.2.2⟩
          · simp only [runTask]
            exact heq
          · have := hrest.2.2.1
            simp only [Coro.pathSize]
            omega
      | pending w p =>
          simp [Coro.immOk] at himm
  | doSpawn c k ihc ihk =>
      intro kind st himm hf hset hexc hp
      simp only [Coro.immOk, Bool.and_eq_true] at himm
      obtain ⟨himmc, himmk⟩ := himm
      obtain ⟨st', new_k, heq, hh, hmem, hsize, hpend, hf', hset', hexc', htr⟩ :=
        ihk kind (spawn c st) himmk (by simpa [spawn] using hf)
          (by simpa [spawn] using hset) (by simpa [spawn] using hexc)
          (by simp [spawn]; omega)
      refine ⟨st', (TaskKind.spawned, c) :: new_k, ?_, ?_, ?_, ?_, ?_, hf', hset',
        hexc', by simpa [spawn] using htr⟩
      · simp only [runTask]
        exact heq
      · rw [hh]
        simp [spawn]
      · intro t ht
        rcases List.mem_cons.mp ht with rfl | ht
        · exact ⟨rfl, himmc⟩
        · exact hmem t ht
      · rw [handlesSize_cons]
        simp only [Coro.pathSize]
        omega
      · rw [hpend]
        simp [spawn]

/-- One batch of well-behaved immediate tasks: all of them finish, the
pending count tracks the ready queue exactly, and the total path size
strictly decreases. -/
lemma runHandles_imm (pgr : Nat → Nat → Nat) :
    ∀ (batch : List HandleEntry) (st : Machine),
      (∀ t ∈ batch, Coro.immOk t.1.isRoot t.2 = true) →
      (∀ t ∈ st.fs.handles, Coro.immOk t.1.isRoot t.2 = true) →
      st.fs.futures = [] → st.fs.waitable_set = none → st.loopExc = false →
      st.fs.pending_count = (batch.length : Int) + st.fs.handles.length →
      ∃ st', runHandles pgr batch st = .ok st' ∧
        (∀ t ∈ st'.fs.handles, Coro.immOk t.1.isRoot t.2 = true) ∧
        st'.fs.futures = [] ∧ st'.fs.waitable_set = none ∧ st'.loopExc = false ∧
        st'.fs.pending_count = (st'.fs.handles.length : Int) ∧
        handlesSize st'.fs.handles + batch.length ≤
          handlesSize st.fs.handles + handlesSize batch ∧
        st'.trace.countP isSetNew = st.trace.countP isSetNew := by
  intro batch
  induction batch with
  | nil =>
      intro st hb hh hf hset hexc hpend
      refine ⟨st, by simp [runHandles], hh, hf, hset, hexc, ?_, by simp [handlesSize_nil], rfl⟩
      simpa using hpend
  | cons t rest ih =>
      intro st hb hh hf hset hexc hpend
      obtain ⟨kind, c⟩ := t
      obtain ⟨st1, newTasks, heq, hh1, hmem1, hsize1, hpend1, hf1, hset1, hexc1, htr1⟩ :=
        runTask_imm pgr c kind st (hb (kind, c) (List.mem_cons_self _ _)) hf hset hexc
          (by simp only [List.length_cons] at hpend; omega)
      obtain ⟨st', hrun, hh', hf', hset', hexc', hpend', hsize', htr'⟩ :=
        ih st1
          (fun u hu => hb u (List.mem_cons_of_mem _ hu))
          (fun u hu => by
            rw [hh1] at hu
            rcases List.mem_append.mp hu with hu | hu
            · exact hh u hu
            · obtain ⟨hk, hi⟩ := hmem1 u hu
              rw [hk, TaskKind.isRoot]
              exact hi)
          hf1 hset1 hexc1
          (by
            rw [hpend1, hh1]
            simp only [List.length_cons] at hpend
            simp [List.length_append]
            omega)
      refine ⟨st', ?_, hh', hf', hset', hexc', hpend', ?_, htr'.trans htr1⟩
      · simp only [runHandles]
        rw [heq]
        exact hrun
      · rw [hh1] at hsize'
        rw [handlesSize_append] at hsize'
        rw [handlesSize_cons]
        simp only [List.length_cons]
        omega

/-- The drain loop on a well-behaved immediate configuration reaches the
fully quiescent state, given fuel exceeding the total path size. -/
lemma loop_poll_imm (pgr : Nat → Nat → Nat) :
    ∀ (fuel : Nat) (st : Machine),
      (∀ t ∈ st.fs.handles, Coro.immOk t.1.isRoot t.2 = true) →
      st.fs.futures = [] → st.fs.waitable_set = none → st.loopExc = false →
      st.fs.pending_count = (st.fs.handles.length : Int) →
      handlesSize st.fs.handles < fuel →
      ∃ st', loop_poll pgr fuel st = .ok st' ∧
        st'.fs.handles = [] ∧ st'.fs.futures = [] ∧ st'.fs.waitable_set = none ∧
        st'.fs.pending_count = 0 ∧
        st'.trace.countP isSetNew = st.trace.countP isSetNew := by
  intro fuel
  induction fuel with
  | zero => intro st _ _ _ _ _ hsz; omega
  | succ n ih =>
      intro st hh hf hset hexc hpend hsz
      obtain ⟨st2, hrun, hh2, hf2, hset2, hexc2, hpend2, hsize2, htr2⟩ :=
        runHandles_imm pgr st.fs.handles { st with fs := { st.fs with handles := [] } }
          hh (by simp) (by simpa using hf) (by simpa using hset) (by simpa using hexc)
          (by simp; omega)
      by_cases hemp : (st.fs.handles.isEmpty && st2.fs.handles.isEmpty) = true
      · refine ⟨st2, ?_, ?_, hf2, hset2, ?_, ?_⟩
        · simp only [loop_poll, hrun]
          rw [if_neg (by rw [hexc2]; simp), if_pos hemp]
        · simp only [Bool.and_eq_true] at hemp
          exact List.isEmpty_iff.mp hemp.2
        · simp only [Bool.and_eq_true] at hemp
          rw [hpend2, List.isEmpty_iff.mp hemp.2]
          simp
        · simpa using htr2
      · have hbatch : st.fs.handles ≠ [] := by
          intro hnil
          apply hemp
          have h2nil : st2.fs.handles = [] := by
            have hx : handlesSize st2.fs.handles + st.fs.handles.length ≤
                handlesSize st.fs.handles := by
              simpa [handlesSize] using hsize2
            rw [hnil] at hx
            simp [handlesSize_nil] at hx
            cases hcase : st2.fs.handles with
            | nil => rfl
            | cons a l =>
                rw [hcase, handlesSize_cons] at hx
                have hpos := Coro.pathSize_pos a.2
                omega
          rw [hnil, h2nil]
          simp
        obtain ⟨st', hloop, hrest⟩ := ih st2 hh2 hf2 hset2 hexc2 hpend2
          (by
            have hlen : 1 ≤ st.fs.handles.length := by
              cases hcase : st.fs.handles with
              | nil => exact absurd hcase hbatch
              | cons a l => simp [hcase]
            have : handlesSize st2.fs.handles + st.fs.handles.length ≤
                handlesSize st.fs.handles := by simpa [handlesSize] using hsize2
            omega)
        refine ⟨st', ?_, hrest.1, hrest.2.1, hrest.2.2.1, hrest.2.2.2.1, ?_⟩
        · simp only [loop_poll, hrun]
          rw [if_neg (by rw [hexc2]; simp), if_neg hemp]
          exact hloop
        · rw [hrest.2.2.2.2]
          simpa using htr2

/- ---------------------------------------------------------------------
Claim theorems.
--------------------------------------------------------------------- -/

/-- Claim C1: at every root-task state observable through `first_poll`,
`spawn` and `callback` invocations the pending count is non-negative, and
`_poll` returns EXIT exactly when the pending count is zero, releasing the
waitable set — when one exists — exactly on that EXIT path. -/
theorem c1_pending_nonneg_exit_iff (pgr : Nat → Nat → Nat) :
    (∀ st : Machine, ObsReach pgr st → 0 ≤ st.fs.pending_count) ∧
    (∀ (fuel : Nat) (st st' : Machine) (r : Nat), _poll pgr fuel st = .ok (st', r) →
      (r = _CallbackCode.EXIT ↔ st'.fs.pending_count = 0) ∧
      (r = _CallbackCode.EXIT →
        (st'.fs.waitable_set.isSome = true →
          st'.trace.countP isSetDrop = st.trace.countP isSetDrop + 1) ∧
        (st'.fs.waitable_set = none →
          st'.trace.countP isSetDrop = st.trace.countP isSetDrop)) ∧
      (r ≠ _CallbackCode.EXIT →
        st'.trace.countP isSetDrop = st.trace.countP isSetDrop)) := by
  constructor
  · intro st h
    have h1 := (ObsReach_inv pgr st h).1
    omega
  · intro fuel st st' r h
    obtain ⟨hh, hiff, hexit, hwait⟩ := _poll_spec pgr fuel st st' r h
    refine ⟨hiff, fun hr => ⟨(hexit hr).2.2.1, (hexit hr).2.2.2⟩, fun hr => ?_⟩
    obtain ⟨s, -, -, -, -, hdrop⟩ := hwait hr
    exact hdrop

/-- Witness for C1: the state reached by a concrete `first_poll` has a
non-negative pending count, and that call's EXIT outcome coincides with
the count being zero. -/
theorem c1_pending_nonneg_exit_iff_witness :
    0 ≤ stExit.fs.pending_count ∧
    (((0 : Nat) = _CallbackCode.EXIT) ↔ stExit.fs.pending_count = 0) := by
  constructor
  · exact (c1_pending_nonneg_exit_iff pgr0).1 stExit
      (ObsReach.first 10 0 0 Coro.ret stExit 0 (by rfl))
  · exact ((c1_pending_nonneg_exit_iff pgr0).2 10 (machineInit 0 0 Coro.ret) stExit 0
      (by rfl)).1

/-- Claim C2: EXIT is never reported while work is outstanding — a
successful EXIT certifies empty ready queue and empty waitable
registrations; `spawn` increments the pending count while only scheduling
(never running) the spawned coroutine; a finished spawned task decrements
the count exactly once whether it returned or raised; and a root task
whose top-level coroutine finishes immediately with one suspending
spawned task reports WAIT with one pending unit, not EXIT. -/
theorem c2_spawn_extends_lifetime (pgr : Nat → Nat → Nat) :
    (∀ (fuel ei b : Nat) (co : Coro) (st : Machine) (r : Nat),
      first_poll pgr fuel ei b co = .ok (st, r) → r = _CallbackCode.EXIT →
      st.fs.handles = [] ∧ st.fs.futures = []) ∧
    (∀ (st : Machine) (fuel e0 e1 e2 : Nat) (st' : Machine) (r : Nat),
      ObsReach pgr st → callback pgr fuel e0 e1 e2 st = .ok (st', r) →
      r = _CallbackCode.EXIT → st'.fs.handles = [] ∧ st'.fs.futures = []) ∧
    (∀ (c : Coro) (st : Machine),
      (spawn c st).fs.pending_count = st.fs.pending_count + 1 ∧
      (spawn c st).fs.handles = st.fs.handles ++ [(TaskKind.spawned, c)] ∧
      (spawn c st).trace = st.trace) ∧
    (∀ st : Machine, 0 < st.fs.pending_count →
      runTask pgr TaskKind.spawned Coro.ret st = .ok
        { st with fs := { st.fs with pending_count := st.fs.pending_count - 1 } } ∧
      runTask pgr TaskKind.spawned Coro.raiseErr st = .ok
        { st with
            loopExc := true,
            fs := { st.fs with pending_count := st.fs.pending_count - 1 } }) ∧
    (∀ (ei b w p : Nat) (k : Nat → Coro),
      obsCode (first_poll pgr 3 ei b
        (Coro.doSpawn (Coro.awaitRes (BridgeRes.pending w p) k) Coro.ret)) =
        some (_CallbackCode.WAIT ||| (0 <<< 4)) ∧
      obsPending (first_poll pgr 3 ei b
        (Coro.doSpawn (Coro.awaitRes (BridgeRes.pending w p) k) Coro.ret)) = some 1 ∧
      _CallbackCode.WAIT ||| (0 <<< 4) ≠ _CallbackCode.EXIT) := by
  refine ⟨?_, ?_, ?_, ?_, ?_⟩
  · intro fuel ei b co st r h hr
    obtain ⟨hi1, hi2⟩ := _poll_inv pgr fuel (machineInit ei b co) st r h
      (by simp [machineInit]) (fun _ => by simp [machineInit])
    obtain ⟨hh, hiff, -, -⟩ := _poll_spec pgr fuel (machineInit ei b co) st r h
    have hp := hiff.mp hr
    refine ⟨hh, ?_⟩
    rw [hh] at hi1
    simp at hi1
    have hz : st.fs.futures.length = 0 := by omega
    exact List.length_eq_zero.mp hz
  · intro st fuel e0 e1 e2 st' r hobs h hr
    obtain ⟨hctx, st1, hdis, hpoll⟩ := callback_decomp pgr fuel e0 e1 e2 st st' r h
    have ih := ObsReach_inv pgr st hobs
    obtain ⟨hi1, hi2⟩ := dispatchEvent_inv e0 e1 e2 _ st1 hdis
      (by simpa [emit] using ih.1)
      (fun hset => by
        obtain ⟨he, hf⟩ := ih.2 (by simpa [emit] using hset)
        exact ⟨by simpa [emit] using he, by simpa [emit] using hf⟩)
    obtain ⟨hj1, hj2⟩ := _poll_inv pgr fuel st1 st' r hpoll hi1 hi2
    obtain ⟨hh, hiff, -, -⟩ := _poll_spec pgr fuel st1 st' r hpoll
    have hp := hiff.mp hr
    refine ⟨hh, ?_⟩
    rw [hh] at hj1
    simp at hj1
    have hz : st'.fs.futures.length = 0 := by omega
    exact List.length_eq_zero.mp hz
  · intro c st
    exact ⟨by simp [spawn], by simp [spawn], by simp [spawn]⟩
  · intro st hp
    constructor
    · simp [runTask, _wrap_spawned_end, decrement_pending, hp]
    · simp [runTask, _wrap_spawned_fail, decrement_pending, hp]
  · intro ei b w p k
    exact ⟨rfl, rfl, by decide⟩

/-- Witness for C2: a concrete callback-EXIT ends with nothing
outstanding; a concrete spawn bumps the count; a concrete spawned
completion decrements it. -/
theorem c2_spawn_extends_lifetime_witness :
    (stAfter.fs.handles = [] ∧ stAfter.fs.futures = []) ∧
    (spawn Coro.ret stExit).fs.pending_count = stExit.fs.pending_count + 1 ∧
    runTask pgr0 TaskKind.spawned Coro.ret stWait = .ok
      { stWait with
          fs := { stWait.fs with pending_count := stWait.fs.pending_count - 1 } } := by
  refine ⟨?_, ?_, ?_⟩
  · exact (c2_spawn_extends_lifetime pgr0).2.1 stWait 10 _Event.FUTURE_READ 5 0 stAfter 0
      (ObsReach.first 10 0 0
        (Coro.awaitRes (BridgeRes.pending 5 9) (fun _ => Coro.ret)) stWait
        (_CallbackCode.WAIT ||| (0 <<< 4)) (by rfl))
      (by rfl) rfl
  · exact ((c2_spawn_extends_lifetime pgr0).2.2.1 Coro.ret stExit).1
  · exact ((c2_spawn_extends_lifetime pgr0).2.2.2.1 stWait (by decide)).1

/-- Claim C3 (amended): resolving an unregistered waitable-id fails fast
with a `KeyError` in `callback`; an unimplemented class/status combination
(`STARTING` observed post-hoc, an unimplemented subtask status, or an
unknown event class) fails fast in `callback`; but registering a second
completion signal against an already-registered waitable-id does NOT fail
fast — `await_result` silently overwrites the existing entry, leaving the
dict size unchanged. -/
theorem c3_protocol_violations (pgr : Nat → Nat → Nat) :
    (∀ (fuel e0 e1 e2 : Nat) (st : Machine), st.ctxCell = true →
      (e0 = _Event.STREAM_READ ∨ e0 = _Event.STREAM_WRITE ∨
       e0 = _Event.FUTURE_READ ∨ e0 = _Event.FUTURE_WRITE) →
      hasFuture e1 st.fs.futures = false →
      callback pgr fuel e0 e1 e2 st = .error PyErr.keyError) ∧
    (∀ (fuel e1 : Nat) (st : Machine), st.ctxCell = true →
      hasFuture e1 st.fs.futures = false →
      callback pgr fuel _Event.SUBTASK e1 _Status.RETURNED st =
        .error PyErr.keyError) ∧
    (∀ (fuel e1 : Nat) (st : Machine), st.ctxCell = true →
      callback pgr fuel _Event.SUBTASK e1 _Status.STARTING st =
        .error PyErr.assertionError) ∧
    (∀ (fuel e1 e2 : Nat) (st : Machine), st.ctxCell = true →
      _Status.RETURNED < e2 →
      callback pgr fuel _Event.SUBTASK e1 e2 st =
        .error PyErr.notImplementedError) ∧
    (∀ (fuel e0 e1 e2 : Nat) (st : Machine), st.ctxCell = true →
      _Event.FUTURE_WRITE < e0 →
      callback pgr fuel e0 e1 e2 st = .error PyErr.notImplementedError) ∧
    (∀ (kind : TaskKind) (w p : Nat) (k : Nat → Coro) (st : Machine),
      hasFuture w st.fs.futures = true →
      runTask pgr kind (Coro.awaitRes (BridgeRes.pending w p) k) st =
        .ok (await_result_register pgr kind w p k st) ∧
      (await_result_register pgr kind w p k st).fs.futures.length =
        st.fs.futures.length) := by
  have hpop : ∀ (e1 : Nat) (st : Machine), hasFuture e1 st.fs.futures = false →
      popFuture e1 st.fs.futures = none :=
    fun e1 st hreg => (popFuture_none_iff e1 st.fs.futures).mpr hreg
  refine ⟨?_, ?_, ?_, ?_, ?_, ?_⟩
  · intro fuel e0 e1 e2 st hc hcls hreg
    simp only [callback]
    rw [if_neg (by simp [hc])]
    rcases hcls with rfl | rfl | rfl | rfl <;>
      simp [dispatchEvent, _Event.NONE, _Event.SUBTASK, _Event.STREAM_READ,
        _Event.STREAM_WRITE, _Event.FUTURE_READ, _Event.FUTURE_WRITE, emit,
        hpop e1 st hreg]
  · intro fuel e1 st hc hreg
    simp only [callback]
    rw [if_neg (by simp [hc])]
    simp [dispatchEvent, _Event.NONE, _Event.SUBTASK, _Status.STARTING,
      _Status.STARTED, _Status.RETURNED, emit, hpop e1 st hreg]
  · intro fuel e1 st hc
    simp only [callback]
    rw [if_neg (by simp [hc])]
    simp [dispatchEvent, _Event.NONE, _Event.SUBTASK, _Status.STARTING]
  · intro fuel e1 e2 st hc h2
    simp only [callback]
    rw [if_neg (by simp [hc])]
    simp only [_Status.RETURNED] at h2
    have hx0 : ¬(e2 = 0) := by omega
    have hx1 : ¬(e2 = 1) := by omega
    have hx2 : ¬(e2 = 2) := by omega
    simp [dispatchEvent, _Event.NONE, _Event.SUBTASK, _Status.STARTING,
      _Status.STARTED, _Status.RETURNED, hx0, hx1, hx2]
  · intro fuel e0 e1 e2 st hc h0
    simp only [callback]
    rw [if_neg (by simp [hc])]
    simp only [_Event.FUTURE_WRITE] at h0
    have hx0 : ¬(e0 = 0) := by omega
    have hx1 : ¬(e0 = 1) := by omega
    have hx2 : ¬(e0 = 2) := by omega
    have hx3 : ¬(e0 = 3) := by omega
    have hx4 : ¬(e0 = 4) := by omega
    have hx5 : ¬(e0 = 5) := by omega
    simp [dispatchEvent, _Event.NONE, _Event.SUBTASK, _Event.STREAM_READ,
      _Event.STREAM_WRITE, _Event.FUTURE_READ, _Event.FUTURE_WRITE,
      hx0, hx1, hx2, hx3, hx4, hx5]
  · intro kind w p k st hreg
    refine ⟨by simp [runTask], ?_⟩
    obtain ⟨hfut, -⟩ := await_result_register_spec pgr kind w p k st
    rw [hfut, setFuture_length, if_pos hreg]

/-- Counterexample for C3 as stated: registering a second completion
signal against the already-registered waitable-id 5 succeeds silently (the
dict keeps its single entry) instead of failing fast. -/
theorem c3_protocol_violations_counterexample :
    hasFuture 5 stDouble.fs.futures = true ∧
    exceptOk (runTask pgr0 TaskKind.spawned
      (Coro.awaitRes (BridgeRes.pending 5 9) (fun _ => Coro.ret)) stDouble) = true ∧
    okFuturesLen (runTask pgr0 TaskKind.spawned
      (Coro.awaitRes (BridgeRes.pending 5 9) (fun _ => Coro.ret)) stDouble) = some 1 :=
  ⟨rfl, rfl, rfl⟩

/-- Witness for C3: a concrete unregistered resolve, the fail-fast event
combinations, and a concrete silent overwrite. -/
theorem c3_protocol_violations_witness :
    callback pgr0 10 _Event.FUTURE_READ 99 0 stWait = .error PyErr.keyError ∧
    callback pgr0 10 _Event.SUBTASK 5 _Status.STARTING stWait =
      .error PyErr.assertionError ∧
    callback pgr0 10 _Event.SUBTASK 5 _Status.START_CANCELLED stWait =
      .error PyErr.notImplementedError ∧
    callback pgr0 10 _Event.CANCELLED 5 0 stWait = .error PyErr.notImplementedError ∧
    (await_result_register pgr0 TaskKind.spawned 5 9 (fun _ => Coro.ret)
      stDouble).fs.futures.length = stDouble.fs.futures.length := by
  refine ⟨?_, ?_, ?_, ?_, ?_⟩
  · exact (c3_protocol_violations pgr0).1 10 _Event.FUTURE_READ 99 0 stWait rfl
      (Or.inr (Or.inr (Or.inl rfl))) rfl
  · exact (c3_protocol_violations pgr0).2.2.1 10 5 stWait rfl
  · exact (c3_protocol_violations pgr0).2.2.2.1 10 5 _Status.START_CANCELLED stWait rfl
      (by decide)
  · exact (c3_protocol_violations pgr0).2.2.2.2.1 10 _Event.CANCELLED 5 0 stWait rfl
      (by decide)
  · exact ((c3_protocol_violations pgr0).2.2.2.2.2 TaskKind.spawned 5 9
      (fun _ => Coro.ret) stDouble rfl).2

/-- Claim C4 (amended): for every top-level coroutine all of whose awaited
bridge results are immediate and which lets no exception escape into
`_Loop.exception` (no failing spawned work, no non-`Err` top-level raise),
`first_poll` returns EXIT on that same invocation and no waitable set is
ever created: `waitable_set_new` is never called and the `waitable_set`
field stays `none`. -/
theorem c4_first_poll_immediate (pgr : Nat → Nat → Nat) (ei b : Nat) (co : Coro)
    (himm : Coro.immOk true co = true) :
    ∃ st, first_poll pgr (co.pathSize + 1) ei b co = .ok (st, _CallbackCode.EXIT) ∧
      st.fs.waitable_set = none ∧ st.trace.countP isSetNew = 0 := by
  obtain ⟨st1, hloop, hh, hf, hset, hpend, htr⟩ :=
    loop_poll_imm pgr (co.pathSize + 1) (machineInit ei b co)
      (by
        intro t ht
        simp [machineInit] at ht
        rw [ht]
        simpa [TaskKind.isRoot] using himm)
      (by simp [machineInit]) (by simp [machineInit]) (by simp [machineInit])
      (by simp [machineInit])
      (by simp [machineInit, handlesSize])
  refine ⟨st1, ?_, hset, ?_⟩
  · unfold first_poll _poll
    simp only [hloop]
    rw [if_pos hpend]
    simp only [hset]
  · rw [htr]
    simp [machineInit]

/-- Counterexample for C4 as stated: a top-level coroutine with no awaited
bridge result at all (hence all of them immediate) that spawns a raising
task makes `first_poll` re-raise the stored exception instead of
returning EXIT. -/
theorem c4_first_poll_immediate_counterexample :
    Coro.allImmediate (Coro.doSpawn Coro.raiseErr Coro.ret) = true ∧
    obsErr (first_poll pgr0 10 0 0 (Coro.doSpawn Coro.raiseErr Coro.ret)) =
      some PyErr.loopException ∧
    obsCode (first_poll pgr0 10 0 0 (Coro.doSpawn Coro.raiseErr Coro.ret)) = none :=
  ⟨rfl, rfl, rfl⟩

/-- Witness for C4: a concrete immediate coroutine that spawns immediate
work exits on the first poll with no waitable set. -/
theorem c4_first_poll_immediate_witness :
    Coro.immOk true (Coro.doSpawn Coro.ret Coro.ret) = true ∧
    ∃ st, first_poll pgr0 ((Coro.doSpawn Coro.ret Coro.ret).pathSize + 1) 0 0
        (Coro.doSpawn Coro.ret Coro.ret) = .ok (st, _CallbackCode.EXIT) ∧
      st.fs.waitable_set = none ∧ st.trace.countP isSetNew = 0 :=
  ⟨rfl, c4_first_poll_immediate pgr0 0 0 (Coro.doSpawn Coro.ret Coro.ret) rfl⟩

/-- Claim C5: a top-level coroutine raising the application error type is
delivered across the boundary via `call_task_return` with the error
result, a raising spawned coroutine is accounted for by the spawn-failure
bookkeeping (exception stored, count decremented once), and the
trampoline's return value carries only the scheduling codes: every
successful `first_poll` or `callback` returns EXIT or a WAIT-encoded
value, never an application error. -/
theorem c5_failures_not_in_return_value (pgr : Nat → Nat → Nat) :
    (∀ (ei b : Nat) (st : Machine), 0 < st.fs.pending_count →
      runTask pgr (TaskKind.root ei b) Coro.raiseErr st = .ok
        { st with
            fs := { st.fs with pending_count := st.fs.pending_count - 1 },
            trace := st.trace ++ [HostCall.call_task_return ei b false] }) ∧
    (∀ st : Machine, 0 < st.fs.pending_count →
      runTask pgr TaskKind.spawned Coro.raiseErr st = .ok
        { st with
            loopExc := true,
            fs := { st.fs with pending_count := st.fs.pending_count - 1 } }) ∧
    (∀ (fuel ei b : Nat) (co : Coro) (st : Machine) (r : Nat),
      first_poll pgr fuel ei b co = .ok (st, r) →
      r = _CallbackCode.EXIT ∨ r % 16 = _CallbackCode.WAIT) ∧
    (∀ (fuel e0 e1 e2 : Nat) (st st' : Machine) (r : Nat),
      callback pgr fuel e0 e1 e2 st = .ok (st', r) →
      r = _CallbackCode.EXIT ∨ r % 16 = _CallbackCode.WAIT) ∧
    (∀ ei b : Nat,
      obsTrace (first_poll pgr 2 ei b Coro.raiseErr) =
        some [HostCall.call_task_return ei b false] ∧
      obsCode (first_poll pgr 2 ei b Coro.raiseErr) = some _CallbackCode.EXIT) := by
  refine ⟨?_, ?_, ?_, ?_, ?_⟩
  · intro ei b st hp
    simp [runTask, _return_result_end, emit, decrement_pending, hp]
  · intro st hp
    simp [runTask, _wrap_spawned_fail, decrement_pending, hp]
  · intro fuel ei b co st r h
    obtain ⟨-, -, -, hwait⟩ := _poll_spec pgr fuel (machineInit ei b co) st r h
    by_cases hr : r = _CallbackCode.EXIT
    · exact Or.inl hr
    · obtain ⟨s, -, hcode, -⟩ := hwait hr
      right
      rw [hcode, wait_code_eq, _CallbackCode.WAIT]
      omega
  · intro fuel e0 e1 e2 st st' r h
    obtain ⟨-, st1, -, hpoll⟩ := callback_decomp pgr fuel e0 e1 e2 st st' r h
    obtain ⟨-, -, -, hwait⟩ := _poll_spec pgr fuel st1 st' r hpoll
    by_cases hr : r = _CallbackCode.EXIT
    · exact Or.inl hr
    · obtain ⟨s, -, hcode, -⟩ := hwait hr
      right
      rw [hcode, wait_code_eq, _CallbackCode.WAIT]
      omega
  · intro ei b
    exact ⟨rfl, rfl⟩

/-- Witness for C5: a concrete raising root delivers the error result via
`call_task_return` and the trampoline still returns EXIT. -/
theorem c5_failures_not_in_return_value_witness :
    runTask pgr0 (TaskKind.root 3 1) Coro.raiseErr stWait = .ok
      { stWait with
          fs := { stWait.fs with pending_count := stWait.fs.pending_count - 1 },
          trace := stWait.trace ++ [HostCall.call_task_return 3 1 false] } ∧
    ((0 : Nat) = _CallbackCode.EXIT ∨ (0 : Nat) % 16 = _CallbackCode.WAIT) := by
  constructor
  · exact (c5_failures_not_in_return_value pgr0).1 3 1 stWait (by decide)
  · exact (c5_failures_not_in_return_value pgr0).2.2.1 10 0 0 Coro.ret stExit 0 (by rfl)

/-- Claim C10: the trampoline outcome is one integer — EXIT is exactly 0,
and WAIT with set id S is exactly `2 ||| (S <<< 4)`, so the low four bits
carry the callback code and the remaining bits the set id; before
returning WAIT the root-task state is stored in the single-slot context
cell, and on the EXIT path it is not. -/
theorem c10_exit_wait_encoding (pgr : Nat → Nat → Nat) :
    _CallbackCode.EXIT = 0 ∧
    (∀ s : Nat, _CallbackCode.WAIT ||| (s <<< 4) = 16 * s + 2 ∧
      (_CallbackCode.WAIT ||| (s <<< 4)) % 16 = _CallbackCode.WAIT ∧
      (_CallbackCode.WAIT ||| (s <<< 4)) >>> 4 = s) ∧
    (∀ (fuel : Nat) (st st' : Machine) (r : Nat), _poll pgr fuel st = .ok (st', r) →
      (st'.fs.pending_count = 0 → r = _CallbackCode.EXIT ∧
        st'.ctxCell = st.ctxCell ∧
        st'.trace.countP isCtxStore = st.trace.countP isCtxStore) ∧
      (st'.fs.pending_count ≠ 0 → ∃ s, st'.fs.waitable_set = some s ∧
        r = _CallbackCode.WAIT ||| (s <<< 4) ∧ st'.ctxCell = true ∧
        st'.trace.countP isCtxStore = st.trace.countP isCtxStore + 1)) := by
  refine ⟨rfl, ?_, ?_⟩
  · intro s
    refine ⟨wait_code_eq s, ?_, ?_⟩
    · rw [wait_code_eq, _CallbackCode.WAIT]
      omega
    · rw [wait_code_eq, wait_code_shiftRight]
  · intro fuel st st' r h
    obtain ⟨-, hiff, hexit, hwait⟩ := _poll_spec pgr fuel st st' r h
    constructor
    · intro hp
      have hr := hiff.mpr hp
      exact ⟨hr, (hexit hr).1, (hexit hr).2.1⟩
    · intro hp
      have hr : r ≠ _CallbackCode.EXIT := fun hr => hp (hiff.mp hr)
      obtain ⟨s, hs, hcode, hctx, hcount, -⟩ := hwait hr
      exact ⟨s, hs, hcode, hctx, hcount⟩

/-- Witness for C10: the concrete WAIT outcome 2 of a suspending
`first_poll` decomposes into code 2 and set id 0, with the state parked in
the context cell; the concrete EXIT outcome 0 leaves the cell empty. -/
theorem c10_exit_wait_encoding_witness :
    (_CallbackCode.WAIT ||| ((0 : Nat) <<< 4) = 16 * 0 + 2 ∧
      (_CallbackCode.WAIT ||| ((0 : Nat) <<< 4)) % 16 = _CallbackCode.WAIT ∧
      (_CallbackCode.WAIT ||| ((0 : Nat) <<< 4)) >>> 4 = 0) ∧
    (∃ s, stWait.fs.waitable_set = some s ∧
      _CallbackCode.WAIT ||| ((0 : Nat) <<< 4) = _CallbackCode.WAIT ||| (s <<< 4) ∧
      stWait.ctxCell = true ∧
      stWait.trace.countP isCtxStore =
        (machineInit 0 0 (Coro.awaitRes (BridgeRes.pending 5 9)
          (fun _ => Coro.ret))).trace.countP isCtxStore + 1) := by
  constructor
  · exact (c10_exit_wait_encoding pgr0).2.1 0
  · exact ((c10_exit_wait_encoding pgr0).2.2 10
      (machineInit 0 0 (Coro.awaitRes (BridgeRes.pending 5 9) (fun _ => Coro.ret)))
      stWait (_CallbackCode.WAIT ||| ((0 : Nat) <<< 4)) (by rfl)).2 (by decide)

/-- Claim C6: for every `FutureWriter` whose handle has not been consumed,
`write(value)` consumes the wrapper (the resulting handle is `none`, with
the consumption performed before the await), performs the host write and
then releases the handle, and returns `true` exactly when the delivered
status is `COMPLETED` and `false` exactly when it is `DROPPED`; a
`CANCELLED` status fails fast instead of being reported as a boolean.  In
particular a writer answered `DROPPED` reports `false` and a writer
answered `COMPLETED` reports `true`. -/
theorem c6_future_writer_write (fw : FutureWriter) (v code h : Nat)
    (hh : fw.handle = some h) :
    (FutureWriter.write fw v code).1.handle = none ∧
    (FutureWriter.write fw v code).2.1 =
      [WrapCall.future_write fw.type_ h v, WrapCall.future_drop_writable fw.type_ h] ∧
    ((FutureWriter.write fw v code).2.2 = .ok true ↔ code = _ReturnCode.COMPLETED) ∧
    ((FutureWriter.write fw v code).2.2 = .ok false ↔ code = _ReturnCode.DROPPED) ∧
    (code = _ReturnCode.CANCELLED →
      (FutureWriter.write fw v code).2.2 = .error PyErr.notImplementedError) := by
  unfold FutureWriter.write
  rw [hh]
  simp only [_ReturnCode.COMPLETED, _ReturnCode.DROPPED, _ReturnCode.CANCELLED]
  by_cases h0 : code = 0
  · simp [h0]
  · by_cases h1 : code = 1
    · simp [h1]
    · by_cases h2 : code = 2
      · simp [h2, h0, h1]
      · simp [h0, h1, h2]

/-- Witness for C6, covering the two-writer scenario: `tx1` (dropped
unread by the host) reports `false`, `tx2` (read by the host) reports
`true`, and a `CANCELLED` status fails fast. -/
theorem c6_future_writer_write_witness :
    (FutureWriter.write ⟨4, some 11, 0, true⟩ 42 _ReturnCode.DROPPED).2.2 = .ok false ∧
    (FutureWriter.write ⟨4, some 12, 0, true⟩ 42 _ReturnCode.COMPLETED).2.2 = .ok true ∧
    (FutureWriter.write ⟨4, some 13, 0, true⟩ 42 _ReturnCode.CANCELLED).2.2 =
      .error PyErr.notImplementedError ∧
    (FutureWriter.write ⟨4, some 11, 0, true⟩ 42 _ReturnCode.DROPPED).1.handle = none := by
  refine ⟨((c6_future_writer_write ⟨4, some 11, 0, true⟩ 42 _ReturnCode.DROPPED 11 rfl).2.2.2.1).mpr rfl,
         ((c6_future_writer_write ⟨4, some 12, 0, true⟩ 42 _ReturnCode.COMPLETED 12 rfl).2.2.1).mpr rfl,
         (c6_future_writer_write ⟨4, some 13, 0, true⟩ 42 _ReturnCode.CANCELLED 13 rfl).2.2.2.2 rfl,
         (c6_future_writer_write ⟨4, some 11, 0, true⟩ 42 _ReturnCode.DROPPED 11 rfl).1⟩

/-- Claim C7: for both stream-reader variants, a read on a reader whose
writer is already dropped returns an empty result with no host call;
otherwise the host read is performed, a `DROPPED` status sets
`writer_dropped` for all future calls, and the partial data accompanying
that very response is still returned. -/
theorem c7_stream_reader_read :
    (∀ (r : ByteStreamReader) (mc : Nat) (resp : Nat × List Nat),
      r.writer_dropped = true → ByteStreamReader.read r mc resp = (r, [], .ok [])) ∧
    (∀ (r : ByteStreamReader) (mc : Nat) (resp : Nat × List Nat) (h : Nat),
      r.writer_dropped = false → r.handle = some h →
      ByteStreamReader.read r mc resp =
        ((if resp.1 = _ReturnCode.DROPPED then { r with writer_dropped := true } else r),
         [WrapCall.stream_read r.type_ h mc], .ok resp.2)) ∧
    (∀ (α : Type) (r : StreamReader α) (mc : Nat) (resp : Nat × List α),
      r.writer_dropped = true → StreamReader.read r mc resp = (r, [], .ok [])) ∧
    (∀ (α : Type) (r : StreamReader α) (mc : Nat) (resp : Nat × List α) (h : Nat),
      r.writer_dropped = false → r.handle = some h →
      StreamReader.read r mc resp =
        ((if resp.1 = _ReturnCode.DROPPED then { r with writer_dropped := true } else r),
         [WrapCall.stream_read r.type_ h mc], .ok resp.2)) := by
  refine ⟨fun r mc resp hd => ?_, fun r mc resp h hd hh => ?_,
          fun α r mc resp hd => ?_, fun α r mc resp h hd hh => ?_⟩
  · simp [ByteStreamReader.read, hd]
  · simp [ByteStreamReader.read, hd, hh]
  · simp [StreamReader.read, hd]
  · simp [StreamReader.read, hd, hh]

/-- Witness for C7: a stream whose response delivers 10 units together
with the peer-dropped status yields those 10 units on the first read, and
from then on an empty result with no further host round-trip. -/
theorem c7_stream_reader_read_witness :
    ByteStreamReader.read ⟨false, 0, some 3, true⟩ 1024
        (_ReturnCode.DROPPED, [0, 1, 2, 3, 4, 5, 6, 7, 8, 9]) =
      (⟨true, 0, some 3, true⟩, [WrapCall.stream_read 0 3 1024],
       .ok [0, 1, 2, 3, 4, 5, 6, 7, 8, 9]) ∧
    ByteStreamReader.read ⟨true, 0, some 3, true⟩ 1024 (_ReturnCode.COMPLETED, []) =
      (⟨true, 0, some 3, true⟩, [], .ok []) := by
  constructor
  · exact (c7_stream_reader_read.2.1 ⟨false, 0, some 3, true⟩ 1024
      (_ReturnCode.DROPPED, [0, 1, 2, 3, 4, 5, 6, 7, 8, 9]) 3 rfl rfl).trans (by rfl)
  · exact c7_stream_reader_read.1 ⟨true, 0, some 3, true⟩ 1024 (_ReturnCode.COMPLETED, [])
      rfl

/-- Claim C9: leaving a wrapper's scope releases the underlying handle
exactly once when the wrapper is not yet released, a second release is a
no-op (streams, future reader) or deferred to a spawned write that fails
fast before any host drop (future writer), and across an exit-exit or
write-write sequence the host handle is dropped at most once. -/
theorem c9_scoped_release :
    (∀ (r : ByteStreamReader) (h : Nat), r.handle = some h →
        r.exitScope.2 = [WrapCall.stream_drop_readable r.type_ h] ∧ r.exitScope.1.handle = none) ∧
    (∀ r : ByteStreamReader, r.handle = none → r.exitScope.2 = []) ∧
    (∀ r : ByteStreamReader, r.exitScope.1.exitScope.2 = [] ∧
        dropCalls (r.exitScope.2 ++ r.exitScope.1.exitScope.2) ≤ 1) ∧
    (∀ (w : ByteStreamWriter) (h : Nat), w.handle = some h →
        w.exitScope.2 = [WrapCall.stream_drop_writable w.type_ h] ∧ w.exitScope.1.handle = none) ∧
    (∀ w : ByteStreamWriter, w.handle = none → w.exitScope.2 = []) ∧
    (∀ w : ByteStreamWriter, w.exitScope.1.exitScope.2 = [] ∧
        dropCalls (w.exitScope.2 ++ w.exitScope.1.exitScope.2) ≤ 1) ∧
    (∀ (α : Type) (r : StreamReader α), r.exitScope.1.exitScope.2 = [] ∧
        dropCalls (r.exitScope.2 ++ r.exitScope.1.exitScope.2) ≤ 1 ∧
        (r.handle = none → r.exitScope.2 = [])) ∧
    (∀ (α : Type) (w : StreamWriter α), w.exitScope.1.exitScope.2 = [] ∧
        dropCalls (w.exitScope.2 ++ w.exitScope.1.exitScope.2) ≤ 1 ∧
        (w.handle = none → w.exitScope.2 = [])) ∧
    (∀ (fr : FutureReader) (h : Nat), fr.handle = some h →
        fr.exitScope.2 = [WrapCall.future_drop_readable fr.type_ h] ∧
        fr.exitScope.1.handle = none) ∧
    (∀ fr : FutureReader, fr.handle = none → fr.exitScope = (fr, [])) ∧
    (∀ fr : FutureReader, fr.exitScope.1.exitScope.2 = [] ∧
        dropCalls (fr.exitScope.2 ++ fr.exitScope.1.exitScope.2) ≤ 1) ∧
    (∀ fw : FutureWriter, fw.handle = none → fw.exitScope = (fw, [])) ∧
    (∀ fw : FutureWriter, fw.handle.isSome →
        fw.exitScope = (fw, [WrapCall.spawn_default_write fw.type_ fw.default])) ∧
    (∀ fw : FutureWriter, dropCalls fw.exitScope.2 = 0) ∧
    (∀ (fw : FutureWriter) (v code v' code' : Nat),
        ((FutureWriter.write fw v code).1.handle = none) ∧
        (FutureWriter.write (FutureWriter.write fw v code).1 v' code').2.1 = [] ∧
        (FutureWriter.write (FutureWriter.write fw v code).1 v' code').2.2 =
          .error PyErr.assertionError ∧
        dropCalls ((FutureWriter.write fw v code).2.1 ++
          (FutureWriter.write (FutureWriter.write fw v code).1 v' code').2.1) ≤ 1) := by
  refine ⟨fun r h hh => ?_, fun r hh => ?_, fun r => ?_,
          fun w h hh => ?_, fun w hh => ?_, fun w => ?_,
          fun α r => ?_, fun α w => ?_,
          fun fr h hh => ?_, fun fr hh => ?_, fun fr => ?_,
          fun fw hh => ?_, fun fw hh => ?_, fun fw => ?_,
          fun fw v code v' code' => ?_⟩
  · simp [ByteStreamReader.exitScope, hh]
  · simp [ByteStreamReader.exitScope, hh]
  · rcases r with ⟨d, t, h, f⟩
    cases h <;> simp [ByteStreamReader.exitScope, dropCalls]
  · simp [ByteStreamWriter.exitScope, hh]
  · simp [ByteStreamWriter.exitScope, hh]
  · rcases w with ⟨d, t, h, f⟩
    cases h <;> simp [ByteStreamWriter.exitScope, dropCalls]
  · rcases r with ⟨d, t, h, f⟩
    cases h <;> simp [StreamReader.exitScope, dropCalls]
  · rcases w with ⟨d, t, h, f⟩
    cases h <;> simp [StreamWriter.exitScope, dropCalls]
  · simp [FutureReader.exitScope, hh]
  · simp [FutureReader.exitScope, hh]
  · rcases fr with ⟨t, h, f⟩
    cases h <;> simp [FutureReader.exitScope, dropCalls]
  · simp [FutureWriter.exitScope, hh]
  · rcases fw with ⟨t, h, d, f⟩
    cases h with
    | none => simp at hh
    | some h => simp [FutureWriter.exitScope]
  · rcases fw with ⟨t, h, d, f⟩
    cases h <;> simp [FutureWriter.exitScope, dropCalls]
  · rcases fw with ⟨t, h, d, f⟩
    cases h with
    | none =>
        refine ⟨rfl, rfl, rfl, ?_⟩
        simp [FutureWriter.write, dropCalls]
    | some h =>
        by_cases h0 : code = 0
        · simp [FutureWriter.write, h0, dropCalls, _ReturnCode.COMPLETED, _ReturnCode.DROPPED]
        · by_cases h1 : code = 1
          · simp [FutureWriter.write, h0, h1, dropCalls,
              _ReturnCode.COMPLETED, _ReturnCode.DROPPED]
          · by_cases h2 : code = 2
            · simp [FutureWriter.write, h0, h1, h2, dropCalls,
                _ReturnCode.COMPLETED, _ReturnCode.DROPPED, _ReturnCode.CANCELLED]
            · simp [FutureWriter.write, h0, h1, h2, dropCalls,
                _ReturnCode.COMPLETED, _ReturnCode.DROPPED, _ReturnCode.CANCELLED]

/-- A `write_all` on a writer whose reader is already dropped returns
immediately with no host call and a zero count. -/
lemma write_all_dropped_byte (w : ByteStreamWriter) (source : List Nat)
    (resps : List (Nat × Nat)) (hd : w.reader_dropped = true) :
    ByteStreamWriter.write_all w source resps = (w, [], .ok 0) := by
  cases resps <;> simp [ByteStreamWriter.write_all, hd]

/-- Generic variant of `write_all_dropped_byte`. -/
lemma write_all_dropped_gen {α : Type} (w : StreamWriter α) (source : List α)
    (resps : List (Nat × Nat)) (hd : w.reader_dropped = true) :
    StreamWriter.write_all w source resps = (w, [], .ok 0) := by
  cases resps <;> simp [StreamWriter.write_all, hd]

/-- Safety and completion of the byte `write_all` loop: a successful run
against a chunk-respecting peer never transfers more than the payload
length, and transfers exactly the payload length when no response carried
the `DROPPED` status. -/
lemma write_all_ok_byte :
    ∀ (resps : List (Nat × Nat)) (w : ByteStreamWriter) (source : List Nat)
      (w' : ByteStreamWriter) (tr : List WrapCall) (total : Nat),
      w.reader_dropped = false → chunksFit source.length resps = true →
      ByteStreamWriter.write_all w source resps = (w', tr, .ok total) →
      total ≤ source.length ∧
      ((∀ r ∈ resps, r.1 ≠ _ReturnCode.DROPPED) → total = source.length) := by
  intro resps
  induction resps with
  | nil =>
      intro w source w' tr total hd hch heq
      by_cases hs : 0 < source.length
      · simp [ByteStreamWriter.write_all, hs, hd] at heq
      · simp [ByteStreamWriter.write_all, hs, hd] at heq
        omega
  | cons resp rest ih =>
      intro w source w' tr total hd hch heq
      by_cases hs : 0 < source.length
      · cases hwh : w.handle with
        | none =>
            simp [ByteStreamWriter.write_all, ByteStreamWriter.write, hs, hd, hwh] at heq
        | some h =>
            simp only [chunksFit, Bool.and_eq_true, decide_eq_true_eq] at hch
            by_cases hdrop : resp.1 = _ReturnCode.DROPPED
            · have hrec := write_all_dropped_byte { w with reader_dropped := true }
                (source.drop resp.2) rest rfl
              rw [hwh] at hrec
              simp [ByteStreamWriter.write_all, ByteStreamWriter.write, hs, hd, hwh,
                hdrop, hrec] at heq
              obtain ⟨hch1, hch2⟩ := hch
              refine ⟨?_, ?_⟩
              · omega
              · intro hnone
                exact absurd hdrop (hnone resp (List.mem_cons_self resp rest))
            · rcases hrec : ByteStreamWriter.write_all w (source.drop resp.2) rest
                with ⟨w2, tr2, res2⟩
              cases res2 with
              | error e =>
                  simp [ByteStreamWriter.write_all, ByteStreamWriter.write, hs, hd, hwh,
                    hdrop, hrec] at heq
              | ok total2 =>
                  simp [ByteStreamWriter.write_all, ByteStreamWriter.write, hs, hd, hwh,
                    hdrop, hrec] at heq
                  have hlen : (source.drop resp.2).length = source.length - resp.2 :=
                    List.length_drop resp.2 source
                  have := ih w (source.drop resp.2) w2 tr2 total2 hd (by rw [hlen]; exact hch.2) hrec
                  refine ⟨by omega, fun hnone => ?_⟩
                  have h2 := this.2 (fun r hr => hnone r (List.mem_cons_of_mem resp hr))
                  omega
      · simp [ByteStreamWriter.write_all, hs, hd] at heq
        omega

/-- Generic variant of `write_all_ok_byte`. -/
lemma write_all_ok_gen {α : Type} :
    ∀ (resps : List (Nat × Nat)) (w : StreamWriter α) (source : List α)
      (w' : StreamWriter α) (tr : List WrapCall) (total : Nat),
      w.reader_dropped = false → chunksFit source.length resps = true →
      StreamWriter.write_all w source resps = (w', tr, .ok total) →
      total ≤ source.length ∧
      ((∀ r ∈ resps, r.1 ≠ _ReturnCode.DROPPED) → total = source.length) := by
  intro resps
  induction resps with
  | nil =>
      intro w source w' tr total hd hch heq
      by_cases hs : 0 < source.length
      · simp [StreamWriter.write_all, hs, hd] at heq
      · simp [StreamWriter.write_all, hs, hd] at heq
        omega
  | cons resp rest ih =>
      intro w source w' tr total hd hch heq
      by_cases hs : 0 < source.length
      · cases hwh : w.handle with
        | none =>
            simp [StreamWriter.write_all, StreamWriter.write, hs, hd, hwh] at heq
        | some h =>
            simp only [chunksFit, Bool.and_eq_true, decide_eq_true_eq] at hch
            by_cases hdrop : resp.1 = _ReturnCode.DROPPED
            · have hrec := write_all_dropped_gen { w with reader_dropped := true }
                (source.drop resp.2) rest rfl
              rw [hwh] at hrec
              simp [StreamWriter.write_all, StreamWriter.write, hs, hd, hwh,
                hdrop, hrec] at heq
              obtain ⟨hch1, hch2⟩ := hch
              refine ⟨?_, ?_⟩
              · omega
              · intro hnone
                exact absurd hdrop (hnone resp (List.mem_cons_self resp rest))
            · rcases hrec : StreamWriter.write_all w (source.drop resp.2) rest
                with ⟨w2, tr2, res2⟩
              cases res2 with
              | error e =>
                  simp [StreamWriter.write_all, StreamWriter.write, hs, hd, hwh,
                    hdrop, hrec] at heq
              | ok total2 =>
                  simp [StreamWriter.write_all, StreamWriter.write, hs, hd, hwh,
                    hdrop, hrec] at heq
                  have hlen : (source.drop resp.2).length = source.length - resp.2 :=
                    List.length_drop resp.2 source
                  have := ih w (source.drop resp.2) w2 tr2 total2 hd (by rw [hlen]; exact hch.2) hrec
                  refine ⟨by omega, fun hnone => ?_⟩
                  have h2 := this.2 (fun r hr => hnone r (List.mem_cons_of_mem resp hr))
                  omega
      · simp [StreamWriter.write_all, hs, hd] at heq
        omega

/-- A peer that accepts the counts `goods` and then drops: the byte
`write_all` returns exactly the sum of the accepted counts. -/
lemma write_all_drop_after_byte :
    ∀ (goods : List Nat) (w : ByteStreamWriter) (source : List Nat) (h : Nat),
      w.reader_dropped = false → w.handle = some h → goods.sum < source.length →
      ∃ w' tr, ByteStreamWriter.write_all w source
          (goods.map (fun c => (_ReturnCode.COMPLETED, c)) ++ [(_ReturnCode.DROPPED, 0)]) =
        (w', tr, .ok goods.sum) ∧ w'.reader_dropped = true := by
  intro goods
  induction goods with
  | nil =>
      intro w source h hd hh hsum
      have hs : 0 < source.length := by simpa using hsum
      have hrec := write_all_dropped_byte { w with reader_dropped := true }
        (source.drop 0) [] rfl
      refine ⟨{ w with reader_dropped := true }, [WrapCall.stream_write w.type_ h source.length], ?_, rfl⟩
      simp [ByteStreamWriter.write_all, ByteStreamWriter.write, hs, hd, hh, hrec,
        _ReturnCode.DROPPED, _ReturnCode.COMPLETED]
  | cons c goods ih =>
      intro w source h hd hh hsum
      have hs : 0 < source.length := by
        simp only [List.sum_cons] at hsum
        omega
      have hsum' : goods.sum < (source.drop c).length := by
        rw [List.length_drop]
        simp only [List.sum_cons] at hsum
        omega
      obtain ⟨w', tr, hih, hdrop'⟩ := ih w (source.drop c) h hd hh hsum'
      refine ⟨w', WrapCall.stream_write w.type_ h source.length :: tr, ?_, hdrop'⟩
      simp only [_ReturnCode.DROPPED, _ReturnCode.COMPLETED] at hih
      simp [ByteStreamWriter.write_all, ByteStreamWriter.write, hs, hd, hh, hih,
        _ReturnCode.DROPPED, _ReturnCode.COMPLETED, List.sum_cons]

/-- Generic variant of `write_all_drop_after_byte`. -/
lemma write_all_drop_after_gen {α : Type} :
    ∀ (goods : List Nat) (w : StreamWriter α) (source : List α) (h : Nat),
      w.reader_dropped = false → w.handle = some h → goods.sum < source.length →
      ∃ w' tr, StreamWriter.write_all w source
          (goods.map (fun c => (_ReturnCode.COMPLETED, c)) ++ [(_ReturnCode.DROPPED, 0)]) =
        (w', tr, .ok goods.sum) ∧ w'.reader_dropped = true := by
  intro goods
  induction goods with
  | nil =>
      intro w source h hd hh hsum
      have hs : 0 < source.length := by simpa using hsum
      have hrec := write_all_dropped_gen { w with reader_dropped := true }
        (source.drop 0) [] rfl
      refine ⟨{ w with reader_dropped := true }, [WrapCall.stream_write w.type_ h source.length], ?_, rfl⟩
      simp [StreamWriter.write_all, StreamWriter.write, hs, hd, hh, hrec,
        _ReturnCode.DROPPED, _ReturnCode.COMPLETED]
  | cons c goods ih =>
      intro w source h hd hh hsum
      have hs : 0 < source.length := by
        simp only [List.sum_cons] at hsum
        omega
      have hsum' : goods.sum < (source.drop c).length := by
        rw [List.length_drop]
        simp only [List.sum_cons] at hsum
        omega
      obtain ⟨w', tr, hih, hdrop'⟩ := ih w (source.drop c) h hd hh hsum'
      refine ⟨w', WrapCall.stream_write w.type_ h source.length :: tr, ?_, hdrop'⟩
      simp only [_ReturnCode.DROPPED, _ReturnCode.COMPLETED] at hih
      simp [StreamWriter.write_all, StreamWriter.write, hs, hd, hh, hih,
        _ReturnCode.DROPPED, _ReturnCode.COMPLETED, List.sum_cons]

/-- Claim C8: for both stream-writer variants, `write_all` on a payload of
length L against a chunk-respecting peer never reports more than L, reports
exactly L when the peer never drops, and when the peer drops after
accepting counts summing to K < L it reports exactly K. -/
theorem c8_stream_write_all :
    (∀ (w : ByteStreamWriter) (source : List Nat) (resps : List (Nat × Nat))
       (w' : ByteStreamWriter) (tr : List WrapCall) (total : Nat),
      w.reader_dropped = false → chunksFit source.length resps = true →
      ByteStreamWriter.write_all w source resps = (w', tr, .ok total) →
      total ≤ source.length ∧
      ((∀ r ∈ resps, r.1 ≠ _ReturnCode.DROPPED) → total = source.length)) ∧
    (∀ (goods : List Nat) (w : ByteStreamWriter) (source : List Nat) (h : Nat),
      w.reader_dropped = false → w.handle = some h → goods.sum < source.length →
      ∃ w' tr, ByteStreamWriter.write_all w source
          (goods.map (fun c => (_ReturnCode.COMPLETED, c)) ++ [(_ReturnCode.DROPPED, 0)]) =
        (w', tr, .ok goods.sum) ∧ w'.reader_dropped = true) ∧
    (∀ (α : Type) (w : StreamWriter α) (source : List α) (resps : List (Nat × Nat))
       (w' : StreamWriter α) (tr : List WrapCall) (total : Nat),
      w.reader_dropped = false → chunksFit source.length resps = true →
      StreamWriter.write_all w source resps = (w', tr, .ok total) →
      total ≤ source.length ∧
      ((∀ r ∈ resps, r.1 ≠ _ReturnCode.DROPPED) → total = source.length)) ∧
    (∀ (α : Type) (goods : List Nat) (w : StreamWriter α) (source : List α) (h : Nat),
      w.reader_dropped = false → w.handle = some h → goods.sum < source.length →
      ∃ w' tr, StreamWriter.write_all w source
          (goods.map (fun c => (_ReturnCode.COMPLETED, c)) ++ [(_ReturnCode.DROPPED, 0)]) =
        (w', tr, .ok goods.sum) ∧ w'.reader_dropped = true) :=
  ⟨fun w source resps w' tr total => write_all_ok_byte resps w source w' tr total,
   write_all_drop_after_byte,
   fun _ w source resps w' tr total => write_all_ok_gen resps w source w' tr total,
   fun _ => write_all_drop_after_gen⟩

/-- Witness for C8: a 5-byte payload accepted in chunks of 2 and 3 reports
5; a peer that accepts 2 bytes and then drops makes `write_all` report 2. -/
theorem c8_stream_write_all_witness :
    (5 ≤ ([1, 2, 3, 4, 5] : List Nat).length ∧
      ((∀ r ∈ [(_ReturnCode.COMPLETED, 2), (_ReturnCode.COMPLETED, 3)],
          (r : Nat × Nat).1 ≠ _ReturnCode.DROPPED) →
        5 = ([1, 2, 3, 4, 5] : List Nat).length)) ∧
    (∃ w' tr, ByteStreamWriter.write_all ⟨false, 0, some 2, true⟩ [1, 2, 3, 4, 5]
        ([2].map (fun c => (_ReturnCode.COMPLETED, c)) ++ [(_ReturnCode.DROPPED, 0)]) =
      (w', tr, .ok ([2] : List Nat).sum) ∧ w'.reader_dropped = true) := by
  constructor
  · exact c8_stream_write_all.1 ⟨false, 0, some 2, true⟩ [1, 2, 3, 4, 5]
      [(_ReturnCode.COMPLETED, 2), (_ReturnCode.COMPLETED, 3)] ⟨false, 0, some 2, true⟩
      [WrapCall.stream_write 0 2 5, WrapCall.stream_write 0 2 3] 5 rfl (by decide) (by rfl)
  · exact c8_stream_write_all.2.1 [2] ⟨false, 0, some 2, true⟩ [1, 2, 3, 4, 5] 2 rfl rfl
      (by decide)

/-- Witness for C9: a concrete reader is dropped exactly once across a
double exit, and a concrete consumed future writer's second write fails
fast with no host call. -/
theorem c9_scoped_release_witness :
    ((⟨false, 0, some 3, true⟩ : ByteStreamReader).exitScope.2 =
      [WrapCall.stream_drop_readable 0 3]) ∧
    ((⟨false, 0, some 3, true⟩ : ByteStreamReader).exitScope.1.exitScope.2 = []) ∧
    (FutureWriter.write (FutureWriter.write ⟨4, some 11, 0, true⟩ 42 0).1 7 0).2.2 =
      .error PyErr.assertionError := by
  refine ⟨(c9_scoped_release.1 ⟨false, 0, some 3, true⟩ 3 rfl).1,
          (c9_scoped_release.2.2.1 ⟨false, 0, some 3, true⟩).1,
          (c9_scoped_release.2.2.2.2.2.2.2.2.2.2.2.2.2.2 ⟨4, some 11, 0, true⟩ 42 0 7 0).2.2.1⟩

end ComponentizePy
